import Mathlib

/-!
Verification of the MysteryMansion session/room server.

The definitions below are a shallow embedding of the TypeScript source:
  * `src/shared/schema.ts`     : card catalogs and record shapes
  * `src/unnamed/part_003`     : `MemStorage` (store + game engine)
  * `src/server/routes.ts`     : WebSocket dispatcher and handlers
  * `src/server/chat.ts`       : `handleGetSolution`

Conventions of the embedding:
  * JavaScript `Map` objects are modeled as Lean lists kept in insertion
    order (`Map.set` on an existing key keeps its position, so updates are
    in-place list maps).
  * `Math.floor(Math.random() * n)` draws are modeled by an adversarially
    chosen natural number taken modulo `n`, which ranges over exactly the
    same set of values.
  * The JS `Record` keyed by `id.toString()` is modeled as an association
    list keyed by the numeric id itself; `Nat.toString` is injective, so
    the two key spaces are in bijection.
  * The `gameState` field that the source initializes to the empty object
    literal is modeled by a structure whose fields are all `Option`/empty;
    the empty object is truthy in JS, which the embedding mirrors by
    having the store return `some` of it rather than `none`.
  * Outbound `ws.send` calls are modeled by appending to an `outbox` list,
    so unicast and broadcast behavior is observable in the final state.
-/

namespace MysteryMansion

/-! ## Card catalogs (src/shared/schema.ts) -/

def suspects : List String :=
  ["colonel_mustard", "professor_plum", "reverend_green",
   "mrs_peacock", "miss_scarlet", "mrs_white"]

def weapons : List String :=
  ["knife", "candlestick", "revolver", "rope", "wrench", "lead_pipe"]

def gameRooms : List String :=
  ["study", "hall", "lounge", "library", "billiard_room",
   "dining_room", "conservatory", "kitchen"]

/-- Solution triple hidden inside a game state. -/
structure Solution where
  suspect : String
  weapon : String
  room : String
deriving DecidableEq, Repr

/-- Fixed catalogs stored inside the game state (`gameCards` field). -/
structure GameCards where
  suspects : List String
  weapons : List String
  rooms : List String
deriving DecidableEq, Repr

/-- Runtime shape of the `gameState` value attached to a room.  The source
declares a `GameState` type with all fields present, but `createRoom`
stores the empty object literal, so at runtime every field may be absent;
absent fields are `none` (respectively the empty association list). -/
structure GameStateJS where
  solution : Option Solution := none
  currentTurn : Option Nat := none
  gameCards : Option GameCards := none
  playerCards : List (Nat × List String) := []
deriving DecidableEq, Repr

/-- The empty object literal `{}` assigned by `createRoom`. -/
def emptyGameState : GameStateJS := {}

/-- Accusation record (src/shared/schema.ts).  The source stores
`playerId` as the decimal string of the numeric id; the embedding keeps
the number itself. -/
structure Accusation where
  playerId : Nat
  suspect : String
  weapon : String
  room : String
  isFinal : Bool
deriving DecidableEq, Repr

/-! ## Game engine (MemStorage.initializeGame, src/unnamed/part_003) -/

/-- Adversarial randomness consumed by one `initializeGame` call: the three
solution draws and the Fisher-Yates draws (entry `i` of `swaps` is the raw
draw used when the loop index is `i`; the source draws uniformly in
`[0, i+1)`, modeled as `swaps.getD i 0 % (i+1)`). -/
structure DealRand where
  sIdx : Nat
  wIdx : Nat
  rIdx : Nat
  swaps : List Nat
deriving DecidableEq, Repr

/-- A card of the deal pool: category tag and value, as built in step 3 of
`initializeGame`. -/
def PoolCard := String × String
deriving DecidableEq, Repr

/-- The destructuring swap `[a[i], a[j]] = [a[j], a[i]]`: both reads happen
before both writes. -/
def swapAt (l : List PoolCard) (i j : Nat) : List PoolCard :=
  (l.set i (l.getD j ("", ""))).set j (l.getD i ("", ""))

/-- Fisher-Yates loop of `initializeGame`: for `i` from `len-1` down to `1`,
swap position `i` with a drawn position `j ∈ [0, i]`. -/
def fyGo (swaps : List Nat) : Nat → List PoolCard → List PoolCard
  | 0, l => l
  | i + 1, l => fyGo swaps i (swapAt l (i + 1) (swaps.getD (i + 1) 0 % (i + 2)))

/-- Fisher-Yates shuffle over the whole pool. -/
def fisherYates (l : List PoolCard) (swaps : List Nat) : List PoolCard :=
  fyGo swaps (l.length - 1) l

/-- Append `v` to the hand stored under `key` (the JS
`playerCards[playerId].push(card.value)`). -/
def pushCard (pc : List (Nat × List String)) (key : Nat) (v : String) :
    List (Nat × List String) :=
  pc.map fun kv => if kv.1 = key then (kv.1, kv.2 ++ [v]) else kv

/-- Round-robin dealing loop of `initializeGame` step 4: walk the shuffled
pool, pushing each card value to the hand of `playerIds[currentPlayerIndex]`
and advancing the index modulo the player count. -/
def dealGo (pids : List Nat) : List PoolCard → Nat → List (Nat × List String) →
    List (Nat × List String)
  | [], _, pc => pc
  | c :: cs, i, pc =>
    dealGo pids cs ((i + 1) % pids.length) (pushCard pc (pids.getD i 0) c.2)

/-- Step 1 of `initializeGame`: one random element per category. -/
def chooseSolution (rand : DealRand) : Solution :=
  { suspect := suspects.getD (rand.sIdx % suspects.length) ""
    weapon := weapons.getD (rand.wIdx % weapons.length) ""
    room := gameRooms.getD (rand.rIdx % gameRooms.length) "" }

/-- Steps 2-3a of `initializeGame`: every category member except the three
solution values, tagged with its category. -/
def dealPool (sol : Solution) : List PoolCard :=
  (suspects.filter (fun s => s ≠ sol.suspect)).map (fun s => ("suspect", s)) ++
  (weapons.filter (fun w => w ≠ sol.weapon)).map (fun w => ("weapon", w)) ++
  (gameRooms.filter (fun r => r ≠ sol.room)).map (fun r => ("room", r))

/-- Pure core of `MemStorage.initializeGame`: given the random draws and the
ordered player id list, produce the dealt game state (steps 1-5 of the
source; step 6 stores it into the room and is modeled separately). -/
def initializeGameState (rand : DealRand) (playerIds : List Nat) : GameStateJS :=
  let sol := chooseSolution rand
  let shuffled := fisherYates (dealPool sol) rand.swaps
  let initHands : List (Nat × List String) := playerIds.map fun id => (id, [])
  { solution := some sol
    currentTurn := some 0
    gameCards := some ⟨suspects, weapons, gameRooms⟩
    playerCards := dealGo playerIds shuffled 0 initHands }

/-! ## Store records (src/shared/schema.ts, MemStorage) -/

/-- Player record held by the store. -/
structure Player where
  id : Nat
  name : String
  sessionId : String
  roomCode : Option String
  ready : Bool
  isHost : Bool
  points : Nat
deriving DecidableEq, Repr

/-- Room record held by the store (the `createdAt` timestamp is dropped:
no handler reads it). -/
structure Room where
  id : Nat
  code : String
  status : String
  playersCount : Nat
  maxPlayers : Nat
  minPlayers : Nat
  gameState : GameStateJS
deriving DecidableEq, Repr

/-- Connection registry entry (`WSClient` in routes.ts, minus the raw
socket handle). -/
structure WSClient where
  id : String
  playerId : Option Nat
  roomCode : Option String
  username : Option String
deriving DecidableEq, Repr

/-- Outbound envelopes, carrying exactly the payload fields the
verification inspects. -/
inductive Msg where
  | connected (clientId : String)
  | errorMsg (message : String)
  | playerRegistered (playerId : Nat)
  | roomCreated (code : String)
  | roomJoined (code : String)
  | playerJoined (playerId : Nat)
  | playerLeft (playerId : Option Nat)
  | roomLeft
  | hostChanged (newHostId : Nat)
  | playerReadyChanged (playerId : Nat) (ready : Bool)
  | allPlayersReady
  | gameStarted (roomCode : String)
  | playerCardsMsg (cards : List (String × String))
  | turnChanged (playerId : Nat)
  | accusationMade (playerId : Nat) (suspect weapon room : String)
  | cardBeingRevealed (revealer : String)
  | revealCardRequest (accuserId : Nat) (cardType cardValue : String)
  | accusationNotDisproved (playerId : Nat) (suspect weapon room : String)
  | finalAccusationResult (playerId : Nat) (suspect weapon room : String) (correct : Bool)
  | gameEnded (winner : Nat) (solution : Option Solution)
  | solutionRevealed (solution : Option Solution)
deriving DecidableEq, Repr

/-- Whole-server state: connection registry, room subscription index,
player/room store with its id counters, and the list of messages emitted
so far (client id of the receiver paired with the envelope). -/
structure SystemState where
  clients : List WSClient
  roomSubscriptions : List (String × List String)
  players : List Player
  rooms : List Room
  playerIdCounter : Nat
  roomIdCounter : Nat
  outbox : List (String × Msg)
deriving DecidableEq, Repr

/-- Server state before any connection. -/
def initState : SystemState :=
  { clients := [], roomSubscriptions := [], players := [], rooms := []
    playerIdCounter := 1, roomIdCounter := 1, outbox := [] }

/-! ## Registry, index and store operations -/

def lookupClient (S : SystemState) (cid : String) : Option WSClient :=
  S.clients.find? (fun c => c.id == cid)

def updateClient (S : SystemState) (cid : String) (f : WSClient → WSClient) :
    SystemState :=
  { S with clients := S.clients.map fun c => if c.id = cid then f c else c }

/-- JS `sendToClient`: push the envelope if the connection is live. -/
def sendToClient (S : SystemState) (cid : String) (m : Msg) : SystemState :=
  match lookupClient S cid with
  | some _ => { S with outbox := S.outbox ++ [(cid, m)] }
  | none => S

def getRoomClients (S : SystemState) (rc : String) : List String :=
  match S.roomSubscriptions.find? (fun e => e.1 == rc) with
  | some e => e.2
  | none => []

def broadcastToRoom (S : SystemState) (rc : String) (m : Msg) : SystemState :=
  (getRoomClients S rc).foldl (fun s cid => sendToClient s cid m) S

def addToRoom (S : SystemState) (cid : String) (rc : String) : SystemState :=
  if (S.roomSubscriptions.find? (fun e => e.1 == rc)).isSome then
    { S with roomSubscriptions := S.roomSubscriptions.map fun e =>
        if e.1 = rc then (e.1, if cid ∈ e.2 then e.2 else e.2 ++ [cid]) else e }
  else
    { S with roomSubscriptions := S.roomSubscriptions ++ [(rc, [cid])] }

/-- Remove a subscriber; the room entry is dropped when its set empties. -/
def removeFromRoom (S : SystemState) (cid : String) (rc : String) : SystemState :=
  let subs := S.roomSubscriptions.map fun e =>
    if e.1 = rc then (e.1, e.2.filter (fun x => x ≠ cid)) else e
  { S with roomSubscriptions := subs.filter fun e => ¬(e.1 = rc ∧ e.2 = []) }

def getPlayer (S : SystemState) (pid : Nat) : Option Player :=
  S.players.find? (fun p => p.id == pid)

def getPlayersByRoomCode (S : SystemState) (rc : String) : List Player :=
  S.players.filter (fun p => p.roomCode == some rc)

def updatePlayerF (S : SystemState) (pid : Nat) (f : Player → Player) :
    SystemState :=
  { S with players := S.players.map fun p => if p.id = pid then f p else p }

def getRoomByCode (S : SystemState) (code : String) : Option Room :=
  S.rooms.find? (fun r => r.code == code)

def updateRoomF (S : SystemState) (rid : Nat) (f : Room → Room) : SystemState :=
  { S with rooms := S.rooms.map fun r => if r.id = rid then f r else r }

def updateRoomGameState (S : SystemState) (code : String) (gs : GameStateJS) :
    SystemState :=
  match getRoomByCode S code with
  | none => S
  | some room => updateRoomF S room.id fun r => { r with gameState := gs }

/-- JS `getRoomGameState`: `none` only when the room is missing; the empty
object stored at room creation is returned as-is (it is truthy). -/
def getRoomGameState (S : SystemState) (code : String) : Option GameStateJS :=
  (getRoomByCode S code).map (·.gameState)

/-! ## Accusation resolution (MemStorage.checkAccusation) -/

/-- Result of `checkAccusation`: the JS function returns either a boolean
or a disproof object. -/
inductive AccResult where
  | bool (b : Bool)
  | disproof (cardType cardValue : String) (playerId : Nat)
deriving DecidableEq, Repr

/-- Loop over the non-accusing players: the first player whose hand holds
one of the three accused cards disproves, suspect checked before weapon
before room; players with no hand entry are skipped. -/
def disproveSearch (pc : List (Nat × List String)) (acc : Accusation) :
    List Player → AccResult
  | [] => .bool true
  | p :: rest =>
    match pc.lookup p.id with
    | none => disproveSearch pc acc rest
    | some hand =>
      if hand.contains acc.suspect then .disproof "suspect" acc.suspect p.id
      else if hand.contains acc.weapon then .disproof "weapon" acc.weapon p.id
      else if hand.contains acc.room then .disproof "room" acc.room p.id
      else disproveSearch pc acc rest

/-- MemStorage.checkAccusation.  A final accusation against a game state
with no `solution` field reads a field of `undefined` in JS and throws;
the throw is the `.error` case, caught by the calling handler. -/
def checkAccusation (S : SystemState) (rc : String) (acc : Accusation) :
    Except Unit AccResult :=
  match getRoomGameState S rc with
  | none => .ok (.bool false)
  | some gs =>
    if acc.isFinal then
      match gs.solution with
      | none => .error ()
      | some sol => .ok (.bool (acc.suspect == sol.suspect &&
          acc.weapon == sol.weapon && acc.room == sol.room))
    else
      let players := getPlayersByRoomCode S rc
      let otherPlayers := players.filter (fun p => p.id ≠ acc.playerId)
      .ok (disproveSearch gs.playerCards acc otherPlayers)

/-! ## Message handlers (src/server/routes.ts, src/server/chat.ts) -/

/-- Lowercasing as performed by JS `toLowerCase` on the ASCII names used
by the identity check, written over the character list of the string. -/
def jsToLower (s : String) : String := String.mk (s.data.map Char.toLower)

/-- Classification of a dealt card value against the catalogs carried in
the game state (`gameCards.suspects.includes(card)` chain in
handleStartGame).  The `none` case cannot arise there: the freshly dealt
state always carries its catalogs. -/
def cardTypeOf (gc? : Option GameCards) (v : String) : String :=
  match gc? with
  | some gc =>
    if gc.suspects.contains v then "suspect"
    else if gc.weapons.contains v then "weapon"
    else "room"
  | none => "room"

/-- New transport connection (wss.on connection): register the client and
send the `connected` envelope.  A duplicate id overwrites, as `Map.set`
does; the ids generated by `nanoid` are fresh in practice. -/
def handleConnect (S : SystemState) (cid : String) : SystemState :=
  let S1 :=
    if (lookupClient S cid).isSome then
      { S with clients := S.clients.map fun c =>
          if c.id = cid then ⟨cid, none, none, none⟩ else c }
    else
      { S with clients := S.clients ++ [⟨cid, none, none, none⟩] }
  sendToClient S1 cid (.connected cid)

def handleRegisterPlayer (S : SystemState) (cid name : String) : SystemState :=
  match lookupClient S cid with
  | none => S
  | some _ =>
    if 2 ≤ name.length ∧ name.length ≤ 20 then
      let pid := S.playerIdCounter
      let player : Player :=
        { id := pid, name := name, sessionId := cid, roomCode := none
          ready := false, isHost := false, points := 0 }
      let S1 := { S with players := S.players ++ [player]
                         playerIdCounter := S.playerIdCounter + 1 }
      let S2 := updateClient S1 cid fun c =>
        { c with playerId := some pid, username := some name }
      sendToClient S2 cid (.playerRegistered pid)
    else
      sendToClient S cid (.errorMsg "Invalid player data")

/-- Room creation.  The source draws codes in a loop until the drawn code
is not already stored; the handler here receives the draw, and a colliding
draw leaves the state unchanged, standing for an intermediate iteration of
that loop (the loop exits only on a fresh code). -/
def handleCreateRoom (S : SystemState) (cid code : String) : SystemState :=
  match lookupClient S cid with
  | none => S
  | some c =>
    match c.playerId with
    | none => S
    | some pid =>
      if (getRoomByCode S code).isSome then S
      else
        let room : Room :=
          { id := S.roomIdCounter, code := code, status := "waiting"
            playersCount := 0, maxPlayers := 6, minPlayers := 2
            gameState := emptyGameState }
        let S1 := { S with rooms := S.rooms ++ [room]
                           roomIdCounter := S.roomIdCounter + 1 }
        match getPlayer S1 pid with
        | none => S1
        | some _ =>
          let S2 := updatePlayerF S1 pid fun p =>
            { p with roomCode := some code, isHost := true, ready := false }
          let S3 := updateRoomF S2 room.id fun r => { r with playersCount := 1 }
          let S4 := updateClient S3 cid fun cl => { cl with roomCode := some code }
          let S5 := addToRoom S4 cid code
          sendToClient S5 cid (.roomCreated code)

def handleJoinRoom (S : SystemState) (cid code : String) : SystemState :=
  match lookupClient S cid with
  | none => S
  | some c =>
    match c.playerId with
    | none => S
    | some pid =>
      if code.length ≠ 6 then
        sendToClient S cid (.errorMsg "Could not join room")
      else
        match getRoomByCode S code with
        | none => sendToClient S cid (.errorMsg "Room not found")
        | some room =>
          if room.playersCount ≥ room.maxPlayers then
            sendToClient S cid (.errorMsg "Room is full")
          else if room.status = "playing" then
            sendToClient S cid (.errorMsg "Game already in progress")
          else
            match getPlayer S pid with
            | none => S
            | some _ =>
              let S1 := updatePlayerF S pid fun p =>
                { p with roomCode := some code, ready := false }
              let S2 := updateRoomF S1 room.id fun r =>
                { r with playersCount := room.playersCount + 1 }
              let S3 := updateClient S2 cid fun cl => { cl with roomCode := some code }
              let S4 := addToRoom S3 cid code
              let S5 := broadcastToRoom S4 code (.playerJoined pid)
              sendToClient S5 cid (.roomJoined code)

def handleLeaveRoom (S : SystemState) (cid : String) : SystemState :=
  match lookupClient S cid with
  | none => S
  | some c =>
    match c.playerId, c.roomCode with
    | some pid, some rc =>
      match getRoomByCode S rc, getPlayer S pid with
      | some room, some player =>
        let S1 := updatePlayerF S pid fun p =>
          { p with roomCode := none, ready := false, isHost := false }
        let S2 := updateRoomF S1 room.id fun r =>
          { r with playersCount := room.playersCount - 1 }
        let S3 :=
          if player.isHost then
            match getPlayersByRoomCode S2 rc with
            | [] => S2
            | newHost :: _ =>
              let Sa := updatePlayerF S2 newHost.id fun p => { p with isHost := true }
              broadcastToRoom Sa rc (.hostChanged newHost.id)
          else S2
        let S4 := broadcastToRoom S3 rc (.playerLeft (some player.id))
        let S5 := removeFromRoom S4 cid rc
        let S6 := updateClient S5 cid fun cl => { cl with roomCode := none }
        sendToClient S6 cid .roomLeft
      | _, _ => S
    | _, _ => S

def handleToggleReady (S : SystemState) (cid : String) : SystemState :=
  match lookupClient S cid with
  | none => S
  | some c =>
    match c.playerId, c.roomCode with
    | some pid, some rc =>
      match getPlayer S pid with
      | none => S
      | some player =>
        let newReady := !player.ready
        let S1 := updatePlayerF S pid fun p => { p with ready := newReady }
        let S2 := broadcastToRoom S1 rc (.playerReadyChanged pid newReady)
        let roomPlayers := getPlayersByRoomCode S2 rc
        if roomPlayers.length ≥ 2 ∧ roomPlayers.all (·.ready) then
          match roomPlayers.find? (·.isHost) with
          | none => S2
          | some host =>
            match S2.clients.find? (fun cl => cl.playerId == some host.id) with
            | none => S2
            | some hostClient => sendToClient S2 hostClient.id .allPlayersReady
        else S2
    | _, _ => S

def handleStartGame (S : SystemState) (cid : String) (rand : DealRand) :
    SystemState :=
  match lookupClient S cid with
  | none => S
  | some c =>
    match c.playerId, c.roomCode with
    | some pid, some rc =>
      match getPlayer S pid with
      | none => sendToClient S cid (.errorMsg "Only the host can start the game")
      | some player =>
        if ¬player.isHost then
          sendToClient S cid (.errorMsg "Only the host can start the game")
        else
          let players := getPlayersByRoomCode S rc
          match getRoomByCode S rc with
          | none => sendToClient S cid (.errorMsg "Room not found")
          | some room =>
            if players.length < room.minPlayers then
              sendToClient S cid (.errorMsg
                ("Need at least " ++ toString room.minPlayers ++ " players to start"))
            else if ¬players.all (·.ready) then
              sendToClient S cid (.errorMsg "Not all players are ready")
            else
              let S1 := updateRoomF S room.id fun r => { r with status := "playing" }
              let pids := players.map (·.id)
              let gs := initializeGameState rand pids
              let S2 := updateRoomGameState S1 rc gs
              let S3 := broadcastToRoom S2 rc (.gameStarted rc)
              let S4 := players.foldl (fun s p =>
                match s.clients.find? (fun cl => cl.playerId == some p.id) with
                | some pcl =>
                  let hand := (gs.playerCards.lookup p.id).getD []
                  sendToClient s pcl.id
                    (.playerCardsMsg (hand.map fun v => (cardTypeOf gs.gameCards v, v)))
                | none => s) S3
              match players with
              | [] => sendToClient S4 cid (.errorMsg "Could not start game")
              | first :: _ => broadcastToRoom S4 rc (.turnChanged first.id)
    | _, _ => S

/-- The turn check shared by handleMakeAccusation and handleEndTurn: the
index of the caller in the live room player list must equal the stored
`currentTurn`; a missing index (JS `-1`) or a missing `currentTurn` field
(JS `undefined`) never compares equal. -/
def turnMatches (idx? : Option Nat) (turn? : Option Nat) : Bool :=
  match idx?, turn? with
  | some i, some t => i == t
  | _, _ => false

def handleMakeAccusation (S : SystemState) (cid : String) (s w r : String) :
    SystemState :=
  match lookupClient S cid with
  | none => S
  | some c =>
    match c.playerId, c.roomCode with
    | some pid, some rc =>
      match getRoomGameState S rc with
      | none => sendToClient S cid (.errorMsg "Game not found")
      | some gs =>
        let players := getPlayersByRoomCode S rc
        let idx? := players.findIdx? (fun p => p.id == pid)
        if ¬turnMatches idx? gs.currentTurn then
          sendToClient S cid (.errorMsg "Not your turn")
        else
          let acc : Accusation :=
            { playerId := pid, suspect := s, weapon := w, room := r, isFinal := false }
          let S1 := broadcastToRoom S rc (.accusationMade pid s w r)
          match checkAccusation S1 rc acc with
          | .ok (.disproof ct cv rpid) =>
            match getPlayer S1 rpid,
                  S1.clients.find? (fun cl => cl.playerId == some rpid) with
            | some revealingPlayer, some revealerClient =>
              let S2 := sendToClient S1 cid (.cardBeingRevealed revealingPlayer.name)
              sendToClient S2 revealerClient.id (.revealCardRequest pid ct cv)
            | _, _ => S1
          | .ok (.bool _) => broadcastToRoom S1 rc (.accusationNotDisproved pid s w r)
          | .error _ => sendToClient S1 cid (.errorMsg "Invalid accusation data")
    | _, _ => S

def handleMakeFinalAccusation (S : SystemState) (cid : String) (s w r : String) :
    SystemState :=
  match lookupClient S cid with
  | none => S
  | some c =>
    match c.playerId, c.roomCode with
    | some pid, some rc =>
      let acc : Accusation :=
        { playerId := pid, suspect := s, weapon := w, room := r, isFinal := true }
      match checkAccusation S rc acc with
      | .error _ => sendToClient S cid (.errorMsg "Invalid accusation data")
      | .ok res =>
        let correct := res == .bool true
        let S1 := broadcastToRoom S rc (.finalAccusationResult pid s w r correct)
        if correct then
          match getRoomByCode S1 rc with
          | none => S1
          | some room =>
            let S2 := updateRoomF S1 room.id fun rr => { rr with status := "ended" }
            let sol? := (getRoomGameState S2 rc).bind (·.solution)
            broadcastToRoom S2 rc (.gameEnded pid sol?)
        else S1
    | _, _ => S

def handleEndTurn (S : SystemState) (cid : String) : SystemState :=
  match lookupClient S cid with
  | none => S
  | some c =>
    match c.playerId, c.roomCode with
    | some pid, some rc =>
      match getRoomGameState S rc with
      | none => sendToClient S cid (.errorMsg "Game not found")
      | some gs =>
        let players := getPlayersByRoomCode S rc
        let idx? := players.findIdx? (fun p => p.id == pid)
        match gs.currentTurn with
        | none => sendToClient S cid (.errorMsg "Not your turn")
        | some cur =>
          if ¬turnMatches idx? (some cur) then
            sendToClient S cid (.errorMsg "Not your turn")
          else
            let nextTurn := (cur + 1) % players.length
            let S1 := updateRoomGameState S rc { gs with currentTurn := some nextTurn }
            let nextPlayer := players.getD nextTurn ⟨0, "", "", none, false, false, 0⟩
            broadcastToRoom S1 rc (.turnChanged nextPlayer.id)
    | _, _ => S

/-- Privileged diagnostic path (src/server/chat.ts handleGetSolution): the
hard-coded identity is the player display name lowercasing to "seif".
The routes.ts dispatcher handleWSMessage never calls this function — it
has no get_solution case — so it is unreachable dead code in the source;
the embedding is kept for reference but `step` does not route to it. -/
def handleGetSolution (S : SystemState) (cid : String) : SystemState :=
  match lookupClient S cid with
  | none => S
  | some c =>
    match c.playerId, c.roomCode with
    | some pid, some rc =>
      match getPlayer S pid with
      | none => sendToClient S cid (.errorMsg "Access denied")
      | some player =>
        if jsToLower player.name ≠ "seif" then
          sendToClient S cid (.errorMsg "Access denied")
        else
          match getRoomGameState S rc with
          | none => sendToClient S cid (.errorMsg "Game not found")
          | some gs => sendToClient S cid (.solutionRevealed gs.solution)
    | _, _ => S

/-- Transport close (ws.on close in routes.ts): notify the other room
subscribers, unsubscribe, clear the player room binding, delete the
client.  Note: no host promotion and no playersCount change. -/
def handleDisconnect (S : SystemState) (cid : String) : SystemState :=
  let S1 :=
    match lookupClient S cid with
    | none => S
    | some c =>
      match c.roomCode with
      | none => S
      | some rc =>
        let roomClients := getRoomClients S rc
        let Sa := roomClients.foldl (fun s mid =>
          if mid = cid then s else sendToClient s mid (.playerLeft c.playerId)) S
        let Sb := removeFromRoom Sa cid rc
        match c.playerId with
        | none => Sb
        | some pid =>
          match getPlayer Sb pid with
          | none => Sb
          | some _ => updatePlayerF Sb pid fun p => { p with roomCode := none }
  { S1 with clients := S1.clients.filter fun cl => cl.id ≠ cid }

/-! ## Dispatch -/

/-- Inbound events: the client messages the verification needs, plus the
connection open and close transport events.  Randomness consumed by a
handler rides on the event. -/
inductive Event where
  | connect (cid : String)
  | register (cid name : String)
  | createRoom (cid code : String)
  | joinRoom (cid code : String)
  | leaveRoom (cid : String)
  | toggleReady (cid : String)
  | startGame (cid : String) (rand : DealRand)
  | makeAccusation (cid s w r : String)
  | makeFinalAccusation (cid s w r : String)
  | endTurn (cid : String)
  | getSolution (cid : String)
  | disconnect (cid : String)
deriving DecidableEq, Repr

def step (S : SystemState) : Event → SystemState
  | .connect cid => handleConnect S cid
  | .register cid name => handleRegisterPlayer S cid name
  | .createRoom cid code => handleCreateRoom S cid code
  | .joinRoom cid code => handleJoinRoom S cid code
  | .leaveRoom cid => handleLeaveRoom S cid
  | .toggleReady cid => handleToggleReady S cid
  | .startGame cid rand => handleStartGame S cid rand
  | .makeAccusation cid s w r => handleMakeAccusation S cid s w r
  | .makeFinalAccusation cid s w r => handleMakeFinalAccusation S cid s w r
  | .endTurn cid => handleEndTurn S cid
  | .getSolution cid =>
    -- The routes.ts dispatcher handleWSMessage has no get_solution case:
    -- the request falls through to the default arm and is answered with
    -- the unknown-message error.  The dispatcher's early return on a
    -- missing client coincides with sendToClient's own liveness check.
    sendToClient S cid (.errorMsg "Unknown message type: get_solution")
  | .disconnect cid => handleDisconnect S cid

def run (S : SystemState) : List Event → SystemState :=
  List.foldl step S

/-! ## Concrete traces used by witnesses and counterexamples -/

/-- Trace reaching a started two-player game whose host is named "seif". -/
def seifTrace : List Event :=
  [.connect "c1", .register "c1" "seif", .createRoom "c1" "ABCDEF",
   .connect "c2", .register "c2" "bob", .joinRoom "c2" "ABCDEF",
   .toggleReady "c1", .toggleReady "c2", .startGame "c1" ⟨0, 0, 0, []⟩]

/-- Trace reaching a started two-player game (host "alice", guest "bob");
the dealt solution with this randomness is colonel_mustard, knife, study. -/
def twoPlayerTrace : List Event :=
  [.connect "c1", .register "c1" "alice", .createRoom "c1" "ABCDEF",
   .connect "c2", .register "c2" "bob", .joinRoom "c2" "ABCDEF",
   .toggleReady "c1", .toggleReady "c2", .startGame "c1" ⟨0, 0, 0, []⟩]

/-- Two-player game ended by a correct final accusation from the host. -/
def endedTrace : List Event :=
  twoPlayerTrace ++ [.makeFinalAccusation "c1" "colonel_mustard" "knife" "study"]

/-- Trace reaching a started three-player game (alice, bob, carol). -/
def threePlayerTrace : List Event :=
  [.connect "c1", .register "c1" "alice", .createRoom "c1" "ABCDEF",
   .connect "c2", .register "c2" "bob", .joinRoom "c2" "ABCDEF",
   .connect "c3", .register "c3" "carol", .joinRoom "c3" "ABCDEF",
   .toggleReady "c1", .toggleReady "c2", .toggleReady "c3",
   .startGame "c1" ⟨0, 0, 0, []⟩]

/-- Three-player game in which alice ended her turn (currentTurn = 1) and
carol then disconnected, leaving two live players of an original three. -/
def c4Trace : List Event :=
  threePlayerTrace ++ [.endTurn "c1", .disconnect "c3"]

/-- Room created by alice, bob registered but not yet joined. -/
def lobbyTrace : List Event :=
  [.connect "c1", .register "c1" "alice", .createRoom "c1" "ABCDEF",
   .connect "c2", .register "c2" "bob"]

/-- Room with two joined players (alice host, bob guest), nobody ready. -/
def joinedTrace : List Event := lobbyTrace ++ [.joinRoom "c2" "ABCDEF"]

/-- Room with two joined players, the guest then disconnecting. -/
def disconnectCountTrace : List Event := joinedTrace ++ [.disconnect "c2"]

/-- Room with two joined players, the host then disconnecting. -/
def hostDisconnectTrace : List Event := joinedTrace ++ [.disconnect "c1"]

/-- Predicate on envelopes: is this a host_changed message. -/
def Msg.isHostChanged : Msg → Bool
  | .hostChanged _ => true
  | _ => false

deriving instance DecidableEq for Except

/-! ## Well-formedness of a server state

The playersCount bookkeeping is only meaningful on states whose registry,
store and indexes agree with each other; `WF` collects the structural
facts that every real server run maintains while no transport `close`
event fires: distinct connection ids, distinct player and room ids and
codes, id counters dominating the stored ids, player room bindings that
point at stored rooms, client records consistent with the player they
are bound to, no player bound twice, and each room's `playersCount`
equal to the live count of players bound to its code. -/
def WF (S : SystemState) : Prop :=
  (S.clients.map (·.id)).Nodup ∧
  (S.players.map (·.id)).Nodup ∧
  (S.rooms.map (·.id)).Nodup ∧
  (S.rooms.map (·.code)).Nodup ∧
  (∀ p ∈ S.players, p.id < S.playerIdCounter) ∧
  (∀ r ∈ S.rooms, r.id < S.roomIdCounter) ∧
  (∀ p ∈ S.players, p.roomCode = none ∨ ∃ r ∈ S.rooms, p.roomCode = some r.code) ∧
  (∀ cl ∈ S.clients, (cl.playerId = none ∧ cl.roomCode = none) ∨
    ∃ p ∈ S.players, cl.playerId = some p.id ∧ p.roomCode = cl.roomCode) ∧
  (S.clients.filterMap (·.playerId)).Nodup ∧
  (∀ r ∈ S.rooms, r.playersCount =
    (S.players.filter (fun p => p.roomCode == some r.code)).length)

/-- The sanity condition on a single inbound event under which the count
invariant survives the step: `register` only on a connection not yet
bound to a player, `create_room`/`join_room` only from a player not
already inside a room (the server never guards against these, but a
well-behaved client UI never emits them), and no transport `close` at
all — the close handler is precisely the one that breaks the count. -/
def eventOk (S : SystemState) : Event → Bool
  | .register cid _ =>
    match lookupClient S cid with
    | some c => c.playerId == none
    | none => true
  | .createRoom cid _ =>
    match lookupClient S cid with
    | some c =>
      match c.playerId with
      | some pid =>
        match getPlayer S pid with
        | some p => p.roomCode == none
        | none => true
      | none => true
    | none => true
  | .joinRoom cid _ =>
    match lookupClient S cid with
    | some c =>
      match c.playerId with
      | some pid =>
        match getPlayer S pid with
        | some p => p.roomCode == none
        | none => true
      | none => true
    | none => true
  | .disconnect _ => false
  | _ => true

/-- `eventOk` checked along a whole trace, each event against the state
it actually fires on. -/
def okTrace : SystemState → List Event → Bool
  | _, [] => true
  | S, e :: es => eventOk S e && okTrace (step S e) es

/-! ## Shuffle properties -/

theorem getD_cons_set_perm {α : Type} (d : α) :
    ∀ (m : Nat) (t : List α) (a : α), m < t.length →
      (t.getD m d :: t.set m a).Perm (a :: t)
  | 0, b :: t', a, _ => by
    simpa using List.Perm.swap a b t'
  | m + 1, b :: t', a, hm => by
    have ih := getD_cons_set_perm d m t' a (by simpa using hm)
    have e : (b :: t').getD (m + 1) d :: (b :: t').set (m + 1) a
        = t'.getD m d :: b :: t'.set m a := by simp
    rw [e]
    exact (List.Perm.swap _ _ _).trans ((ih.cons b).trans (List.Perm.swap _ _ _))

theorem swapAt_perm : ∀ (l : List PoolCard) (i j : Nat),
    i < l.length → j < l.length → (swapAt l i j).Perm l
  | a :: t, 0, 0, _, _ => by simp [swapAt]
  | a :: t, 0, j + 1, _, hj => by
    have hj' : j < t.length := by simpa using hj
    simpa [swapAt] using getD_cons_set_perm ("", "") j t a hj'
  | a :: t, i + 1, 0, hi, _ => by
    have hi' : i < t.length := by simpa using hi
    simpa [swapAt] using getD_cons_set_perm ("", "") i t a hi'
  | a :: t, i + 1, j + 1, hi, hj => by
    have hi' : i < t.length := by simpa using hi
    have hj' : j < t.length := by simpa using hj
    have ih := swapAt_perm t i j hi' hj'
    simpa [swapAt] using ih.cons a

theorem length_swapAt (l : List PoolCard) (i j : Nat) :
    (swapAt l i j).length = l.length := by
  simp [swapAt]

theorem fyGo_perm (swaps : List Nat) :
    ∀ (i : Nat) (l : List PoolCard), i < l.length → (fyGo swaps i l).Perm l
  | 0, l, _ => by simp [fyGo]
  | i + 1, l, hi => by
    have hj : swaps.getD (i + 1) 0 % (i + 2) < l.length :=
      lt_of_le_of_lt (Nat.le_of_lt_succ (Nat.mod_lt _ (Nat.succ_pos _))) hi
    have hlen : (swapAt l (i + 1) (swaps.getD (i + 1) 0 % (i + 2))).length = l.length :=
      length_swapAt ..
    have ih := fyGo_perm swaps i (swapAt l (i + 1) (swaps.getD (i + 1) 0 % (i + 2)))
      (by rw [hlen]; exact Nat.lt_of_succ_lt hi)
    exact ih.trans (swapAt_perm l (i + 1) _ hi hj)

theorem fisherYates_perm (l : List PoolCard) (swaps : List Nat) :
    (fisherYates l swaps).Perm l := by
  cases l with
  | nil => simp [fisherYates, fyGo]
  | cons a t =>
    exact fyGo_perm swaps ((a :: t).length - 1) (a :: t) (by simp)

theorem length_fisherYates (l : List PoolCard) (swaps : List Nat) :
    (fisherYates l swaps).length = l.length :=
  (fisherYates_perm l swaps).length_eq

/-! ## Deal properties -/

theorem pushCard_keys (pc : List (Nat × List String)) (key : Nat) (v : String) :
    (pushCard pc key v).map Prod.fst = pc.map Prod.fst := by
  induction pc with
  | nil => rfl
  | cons kv rest ih =>
    simp only [pushCard, List.map_cons] at ih ⊢
    by_cases h : kv.1 = key <;> simp [h, ih]

theorem pushCard_of_not_mem (pc : List (Nat × List String)) (key : Nat) (v : String)
    (h : key ∉ pc.map Prod.fst) : pushCard pc key v = pc := by
  induction pc with
  | nil => rfl
  | cons kv rest ih =>
    simp only [List.map_cons, List.mem_cons] at h
    push_neg at h
    simp only [pushCard, List.map_cons] at ih ⊢
    rw [if_neg (fun e => h.1 e.symm), ih (h.2)]

theorem flatten_pushCard_perm (pc : List (Nat × List String)) (key : Nat) (v : String)
    (hnd : (pc.map Prod.fst).Nodup) (hmem : key ∈ pc.map Prod.fst) :
    (((pushCard pc key v).map Prod.snd).flatten).Perm
      ((pc.map Prod.snd).flatten ++ [v]) := by
  induction pc with
  | nil => simp at hmem
  | cons kv rest ih =>
    simp only [List.map_cons, List.nodup_cons] at hnd
    by_cases h : kv.1 = key
    · have hrest : pushCard rest key v = rest :=
        pushCard_of_not_mem rest key v (h ▸ hnd.1)
      simp only [pushCard, List.map_cons, if_pos h]
      rw [show (List.map (fun kv2 => if kv2.1 = key then (kv2.1, kv2.2 ++ [v]) else kv2) rest)
          = pushCard rest key v from rfl, hrest]
      simp only [List.flatten_cons, List.append_assoc]
      exact List.Perm.append_left kv.2 List.perm_append_comm
    · have hmem' : key ∈ rest.map Prod.fst := by
        rcases List.mem_cons.mp hmem with h1 | h1
        · exact absurd h1.symm h
        · exact h1
      have := ih hnd.2 hmem'
      simp only [pushCard, List.map_cons, if_neg h] at this ⊢
      rw [List.flatten_cons, List.flatten_cons, List.append_assoc]
      exact List.Perm.append_left kv.2 this

theorem dealGo_keys (pids : List Nat) :
    ∀ (cs : List PoolCard) (i : Nat) (pc : List (Nat × List String)),
      (dealGo pids cs i pc).map Prod.fst = pc.map Prod.fst
  | [], _, _ => rfl
  | c :: cs, i, pc => by
    rw [dealGo, dealGo_keys pids cs, pushCard_keys]

theorem dealGo_flatten_perm (pids : List Nat) (hnd : pids.Nodup) :
    ∀ (cs : List PoolCard) (i : Nat) (pc : List (Nat × List String)),
      pc.map Prod.fst = pids → i < pids.length →
      (((dealGo pids cs i pc).map Prod.snd).flatten).Perm
        ((pc.map Prod.snd).flatten ++ cs.map Prod.snd)
  | [], i, pc, _, _ => by simp [dealGo]
  | c :: cs, i, pc, hkeys, hi => by
    have hpos : 0 < pids.length := Nat.lt_of_le_of_lt (Nat.zero_le i) hi
    have hkey_mem : pids.getD i 0 ∈ pc.map Prod.fst := by
      rw [hkeys, List.getD_eq_getElem pids 0 hi]
      exact List.getElem_mem hi
    have hkeys' : (pushCard pc (pids.getD i 0) c.2).map Prod.fst = pids := by
      rw [pushCard_keys, hkeys]
    have hi' : (i + 1) % pids.length < pids.length := Nat.mod_lt _ hpos
    have ih := dealGo_flatten_perm pids hnd cs ((i + 1) % pids.length)
      (pushCard pc (pids.getD i 0) c.2) hkeys' hi'
    have hpush := flatten_pushCard_perm pc (pids.getD i 0) c.2 (hkeys ▸ hnd) hkey_mem
    rw [dealGo]
    refine ih.trans ?_
    have := hpush.append_right (cs.map Prod.snd)
    simpa [List.append_assoc] using this

theorem lookup_pushCard (key : Nat) (v : String) :
    ∀ (pc : List (Nat × List String)), (pc.map Prod.fst).Nodup → ∀ (key' : Nat),
      (pushCard pc key v).lookup key' =
        if key' = key then (pc.lookup key').map (· ++ [v]) else pc.lookup key'
  | [], _, key' => by simp [pushCard]
  | (k1, h1) :: rest, hnd, key' => by
    simp only [List.map_cons, List.nodup_cons] at hnd
    have ih := lookup_pushCard key v rest hnd.2 key'
    simp only [pushCard, List.map_cons] at ih ⊢
    by_cases hk : k1 = key
    · subst hk
      have hrest : pushCard rest k1 v = rest := pushCard_of_not_mem rest k1 v hnd.1
      simp only [pushCard] at hrest
      rw [if_pos rfl]
      by_cases hk' : key' = k1
      · subst hk'
        simp [List.lookup]
      · have hne : (key' == k1) = false := beq_eq_false_iff_ne.mpr hk'
        simp only [List.lookup, hne, if_neg hk', hrest]
    · simp only [if_neg hk]
      by_cases hh : key' = k1
      · subst hh
        simp [List.lookup, if_neg hk]
      · have hne : (key' == k1) = false := beq_eq_false_iff_ne.mpr hh
        simpa [List.lookup, hne] using ih

theorem dealGo_lookup_len (pids : List Nat) (hnd : pids.Nodup) :
    ∀ (cs : List PoolCard) (i : Nat) (pc : List (Nat × List String)),
      pc.map Prod.fst = pids → i < pids.length → ∀ (k : Nat), k < pids.length →
      ((dealGo pids cs i pc).lookup (pids.getD k 0)).map List.length =
        (pc.lookup (pids.getD k 0)).map
          (fun h => h.length + (List.range cs.length).countP
            (fun t => (i + t) % pids.length = k))
  | [], i, pc, hkeys, hi, k, hk => by
    show (pc.lookup (pids.getD k 0)).map List.length = _
    cases hx : pc.lookup (pids.getD k 0) <;> simp
  | c :: cs, i, pc, hkeys, hi, k, hk => by
    have hpos : 0 < pids.length := Nat.lt_of_le_of_lt (Nat.zero_le i) hi
    have hi' : (i + 1) % pids.length < pids.length := Nat.mod_lt _ hpos
    have hkeys' : (pushCard pc (pids.getD i 0) c.2).map Prod.fst = pids := by
      rw [pushCard_keys, hkeys]
    have ih := dealGo_lookup_len pids hnd cs ((i + 1) % pids.length)
      (pushCard pc (pids.getD i 0) c.2) hkeys' hi' k hk
    have hlp := lookup_pushCard (pids.getD i 0) c.2 pc (hkeys ▸ hnd) (pids.getD k 0)
    have hgetD : (pids.getD k 0 = pids.getD i 0) ↔ (k = i) := by
      rw [List.getD_eq_getElem pids 0 hk, List.getD_eq_getElem pids 0 hi]
      exact hnd.getElem_inj_iff
    have hcnt : ∀ t : Nat, (((i + 1) % pids.length + t) % pids.length = k)
        = ((i + 1 + t) % pids.length = k) := by
      intro t; rw [Nat.mod_add_mod]
    have hrange : (List.range (cs.length + 1)).countP
        (fun t => (i + t) % pids.length = k)
        = (if k = i then 1 else 0) + (List.range cs.length).countP
            (fun t => ((i + 1) % pids.length + t) % pids.length = k) := by
      rw [List.range_succ_eq_map, List.countP_cons, List.countP_map]
      have h0 : (decide ((i + 0) % pids.length = k)) = decide (k = i) := by
        rw [Nat.add_zero, Nat.mod_eq_of_lt hi]
        by_cases h : i = k <;> simp [h, Ne.symm, eq_comm]
      have hsucc : (fun t => decide ((i + t) % pids.length = k)) ∘ Nat.succ
          = fun t => decide (((i + 1) % pids.length + t) % pids.length = k) := by
        funext t
        simp only [Function.comp, Nat.succ_eq_add_one, Nat.mod_add_mod]
        rw [show i + (t + 1) = i + 1 + t by omega]
      rw [hsucc, h0]
      by_cases h : k = i <;> simp [h, Nat.add_comm]
    rw [dealGo, ih, hlp]
    by_cases hki : k = i
    · rw [if_pos (hgetD.mpr hki)]
      cases hx : pc.lookup (pids.getD k 0) with
      | none => rfl
      | some h =>
        simp only [Option.map_some']
        rw [show ((c :: cs : List PoolCard)).length = cs.length + 1 from rfl,
          hrange, if_pos hki]
        congr 1
        rw [List.length_append]
        simp only [List.length_cons, List.length_nil]
        omega
    · rw [if_neg (fun e => hki (hgetD.mp e))]
      cases hx : pc.lookup (pids.getD k 0) with
      | none => rfl
      | some h =>
        simp only [Option.map_some']
        rw [show ((c :: cs : List PoolCard)).length = cs.length + 1 from rfl,
          hrange, if_neg hki]
        simp

theorem countP_range_mod (np k : Nat) (hnp : 0 < np) (hk : k < np) :
    ∀ n : Nat, (List.range n).countP (fun t => t % np = k)
      = n / np + (if k < n % np then 1 else 0)
  | 0 => by simp
  | n + 1 => by
    have ih := countP_range_mod np k hnp hk n
    have hr : n % np < np := Nat.mod_lt _ hnp
    have hdm := Nat.div_add_mod n np
    rw [List.range_succ, List.countP_append, ih]
    simp only [List.countP_cons, List.countP_nil]
    by_cases hcase : n % np + 1 = np
    · have hsn : n + 1 = (n % np + 1) + np * (n / np) := by omega
      have hmod : (n + 1) % np = 0 := by
        rw [hsn, Nat.add_mul_mod_self_left, hcase, Nat.mod_self]
      have hdiv : (n + 1) / np = n / np + 1 := by
        rw [hsn, Nat.add_mul_div_left _ _ hnp, hcase, Nat.div_self hnp, Nat.add_comm 1]
      rw [hmod, hdiv]
      simp only [decide_eq_true_eq]
      split_ifs <;> omega
    · have hlt : n % np + 1 < np := by omega
      have hsn : n + 1 = (n % np + 1) + np * (n / np) := by omega
      have hmod : (n + 1) % np = n % np + 1 := by
        rw [hsn, Nat.add_mul_mod_self_left, Nat.mod_eq_of_lt hlt]
      have hdiv : (n + 1) / np = n / np := by
        rw [hsn, Nat.add_mul_div_left _ _ hnp, Nat.div_eq_of_lt hlt]; omega
      rw [hmod, hdiv]
      simp only [decide_eq_true_eq]
      split_ifs <;> omega

theorem category_perm (l : List String) (a : String) (hnd : l.Nodup) (ha : a ∈ l) :
    l.Perm (a :: l.filter (fun x => x ≠ a)) := by
  have h := List.perm_cons_erase ha
  rw [hnd.erase_eq_filter] at h
  have he : l.filter (fun x => x != a) = l.filter (fun x => x ≠ a) :=
    List.filter_congr (fun x _ => by by_cases hxa : x = a <;> simp [hxa])
  rw [he] at h
  exact h

theorem chooseSolution_suspect_mem (rand : DealRand) :
    (chooseSolution rand).suspect ∈ suspects := by
  have h : rand.sIdx % suspects.length < suspects.length :=
    Nat.mod_lt _ (by decide)
  rw [chooseSolution, List.getD_eq_getElem _ _ h]
  exact List.getElem_mem h

theorem chooseSolution_weapon_mem (rand : DealRand) :
    (chooseSolution rand).weapon ∈ weapons := by
  have h : rand.wIdx % weapons.length < weapons.length :=
    Nat.mod_lt _ (by decide)
  rw [chooseSolution, List.getD_eq_getElem _ _ h]
  exact List.getElem_mem h

theorem chooseSolution_room_mem (rand : DealRand) :
    (chooseSolution rand).room ∈ gameRooms := by
  have h : rand.rIdx % gameRooms.length < gameRooms.length :=
    Nat.mod_lt _ (by decide)
  rw [chooseSolution, List.getD_eq_getElem _ _ h]
  exact List.getElem_mem h

theorem dealPool_snd (sol : Solution) :
    (dealPool sol).map Prod.snd =
      suspects.filter (fun x => x ≠ sol.suspect) ++
      weapons.filter (fun x => x ≠ sol.weapon) ++
      gameRooms.filter (fun x => x ≠ sol.room) := by
  simp [dealPool, List.map_map, Function.comp]

theorem initHands_keys (pids : List Nat) :
    ((pids.map fun id => (id, ([] : List String))).map Prod.fst) = pids := by
  induction pids with
  | nil => rfl
  | cons a t ih => simpa using ih

theorem initHands_flatten (pids : List Nat) :
    (((pids.map fun id => (id, ([] : List String))).map Prod.snd)).flatten = [] := by
  induction pids with
  | nil => rfl
  | cons a t ih => simp

theorem initHands_lookup (pids : List Nat) (x : Nat) (hx : x ∈ pids) :
    (pids.map fun id => (id, ([] : List String))).lookup x = some [] := by
  induction pids with
  | nil => simp at hx
  | cons a t ih =>
    by_cases h : x = a
    · subst h; simp [List.lookup]
    · have hx' : x ∈ t := by
        rcases List.mem_cons.mp hx with h1 | h1
        · exact absurd h1 h
        · exact h1
      simpa [List.lookup, beq_eq_false_iff_ne.mpr h] using ih hx'

theorem lookup_getD_of_nodup :
    ∀ (pc : List (Nat × List String)) (k : Nat), k < pc.length →
      (pc.map Prod.fst).Nodup →
      pc.lookup ((pc.getD k (0, [])).1) = some ((pc.getD k (0, [])).2)
  | kv :: rest, 0, _, _ => by simp [List.lookup]
  | kv :: rest, k + 1, hk, hnd => by
    simp only [List.map_cons, List.nodup_cons] at hnd
    have hk' : k < rest.length := by simpa using hk
    have hmem : (rest.getD k (0, [])).1 ∈ rest.map Prod.fst := by
      rw [List.getD_eq_getElem _ _ hk']
      exact List.mem_map_of_mem Prod.fst (List.getElem_mem hk')
    have hne : ((rest.getD k (0, [])).1 == kv.1) = false :=
      beq_eq_false_iff_ne.mpr (fun e => hnd.1 (e ▸ hmem))
    have ih := lookup_getD_of_nodup rest k hk' hnd.2
    rw [List.getD_cons_succ]
    simp only [List.lookup]
    rw [hne]
    exact ih

theorem dealPool_length (sol : Solution) (hs : sol.suspect ∈ suspects)
    (hw : sol.weapon ∈ weapons) (hr : sol.room ∈ gameRooms) :
    (dealPool sol).length = 17 := by
  have h1 := (category_perm suspects sol.suspect (by decide) hs).length_eq
  have h2 := (category_perm weapons sol.weapon (by decide) hw).length_eq
  have h3 := (category_perm gameRooms sol.room (by decide) hr).length_eq
  simp only [List.length_cons] at h1 h2 h3
  have hs6 : suspects.length = 6 := by decide
  have hw6 : weapons.length = 6 := by decide
  have hr8 : gameRooms.length = 8 := by decide
  simp only [dealPool, List.length_append, List.length_map]
  omega

/-- Length of each dealt hand, in closed form: position `k` of the player
list receives `17 / n` cards plus one more when `k < 17 % n`. -/
theorem initializeGame_hand_len (rand : DealRand) (pids : List Nat)
    (hnd : pids.Nodup) (hpos : 0 < pids.length) :
    ∀ hd ∈ (initializeGameState rand pids).playerCards, ∃ k, k < pids.length ∧
      hd.2.length = 17 / pids.length +
        (if k < 17 % pids.length then 1 else 0) := by
  intro hd hmem
  set sol := chooseSolution rand with hsol
  set shuffled := fisherYates (dealPool sol) rand.swaps with hshuffled
  set initHands := pids.map fun id => (id, ([] : List String)) with hih
  set final := dealGo pids shuffled 0 initHands with hfinal
  have hmemF : hd ∈ final := hmem
  have hkeys0 : initHands.map Prod.fst = pids := initHands_keys pids
  have hkeysF : final.map Prod.fst = pids := by
    rw [hfinal, dealGo_keys, hkeys0]
  have hlenF : final.length = pids.length := by
    have := congrArg List.length hkeysF
    simpa using this
  obtain ⟨k, hk, hgetk⟩ := List.mem_iff_getElem.mp hmemF
  have hkp : k < pids.length := hlenF ▸ hk
  refine ⟨k, hkp, ?_⟩
  have hgetk' : final.getD k (0, []) = hd := by
    rw [List.getD_eq_getElem _ _ hk, hgetk]
  have hfst : (final.getD k (0, [])).1 = pids.getD k 0 := by
    rw [List.getD_eq_getElem _ _ hkp, List.getD_eq_getElem _ _ hk]
    have hkm : k < (final.map Prod.fst).length := by simpa using hk
    have h1 : (final.map Prod.fst)[k] = Prod.fst final[k] := List.getElem_map _
    rw [show pids[k] = (final.map Prod.fst).getD k 0 by
      rw [hkeysF, List.getD_eq_getElem _ _ hkp]]
    rw [List.getD_eq_getElem _ _ hkm, h1]
  have hlook : final.lookup (pids.getD k 0) = some (final.getD k (0, [])).2 := by
    rw [← hfst]
    exact lookup_getD_of_nodup final k hk (hkeysF ▸ hnd)
  have hlk := dealGo_lookup_len pids hnd shuffled 0 initHands hkeys0 hpos k hkp
  rw [← hfinal, hlook, initHands_lookup pids (pids.getD k 0)
    (by rw [List.getD_eq_getElem _ _ hkp]; exact List.getElem_mem hkp)] at hlk
  have hslen : shuffled.length = 17 := by
    rw [hshuffled, length_fisherYates,
      dealPool_length sol (chooseSolution_suspect_mem rand)
        (chooseSolution_weapon_mem rand) (chooseSolution_room_mem rand)]
  simp only [Option.map_some', List.length_nil, Nat.zero_add] at hlk
  rw [hslen] at hlk
  have hlen2 := Option.some.inj hlk
  rw [← hgetk', hlen2, countP_range_mod pids.length k hpos hkp 17]

/-- C1: for every game start with an ordered player list whose length is
between `minPlayers = 2` and `maxPlayers = 6` (distinct ids, as the store
guarantees), `initializeGame` deals a perfect partition: the concatenation
of all hands plus the three solution cards is a permutation of the full
catalog (6 suspects, 6 weapons, 8 mansion rooms — each exactly once), the
hands are pairwise disjoint, and any two hands differ in size by at most
one. -/
theorem claim_C1 (rand : DealRand) (pids : List Nat)
    (hnd : pids.Nodup) (hmin : 2 ≤ pids.length) (hmax : pids.length ≤ 6) :
    ((((initializeGameState rand pids).playerCards.map Prod.snd).flatten ++
        [(chooseSolution rand).suspect, (chooseSolution rand).weapon,
         (chooseSolution rand).room]).Perm
      (suspects ++ weapons ++ gameRooms))
    ∧ List.Pairwise List.Disjoint
        ((initializeGameState rand pids).playerCards.map Prod.snd)
    ∧ ∀ h1 ∈ (initializeGameState rand pids).playerCards.map Prod.snd,
        ∀ h2 ∈ (initializeGameState rand pids).playerCards.map Prod.snd,
          h1.length ≤ h2.length + 1 := by
  have hsmem := chooseSolution_suspect_mem rand
  have hwmem := chooseSolution_weapon_mem rand
  have hrmem := chooseSolution_room_mem rand
  have hpos : 0 < pids.length := by omega
  have hkeys0 : ((pids.map fun id => (id, ([] : List String))).map Prod.fst) = pids :=
    initHands_keys pids
  have hdeal := dealGo_flatten_perm pids hnd
    (fisherYates (dealPool (chooseSolution rand)) rand.swaps) 0
    (pids.map fun id => (id, ([] : List String))) hkeys0 hpos
  rw [initHands_flatten pids, List.nil_append] at hdeal
  have hshuf : ((fisherYates (dealPool (chooseSolution rand)) rand.swaps).map
      Prod.snd).Perm ((dealPool (chooseSolution rand)).map Prod.snd) :=
    (fisherYates_perm _ _).map _
  rw [dealPool_snd] at hshuf
  have hflatperm :
      (((initializeGameState rand pids).playerCards.map Prod.snd).flatten).Perm
        (suspects.filter (fun x => x ≠ (chooseSolution rand).suspect) ++
         weapons.filter (fun x => x ≠ (chooseSolution rand).weapon) ++
         gameRooms.filter (fun x => x ≠ (chooseSolution rand).room)) :=
    hdeal.trans hshuf
  have hcatS := category_perm suspects (chooseSolution rand).suspect (by decide) hsmem
  have hcatW := category_perm weapons (chooseSolution rand).weapon (by decide) hwmem
  have hcatR := category_perm gameRooms (chooseSolution rand).room (by decide) hrmem
  have hP : ((((initializeGameState rand pids).playerCards.map Prod.snd).flatten ++
      [(chooseSolution rand).suspect, (chooseSolution rand).weapon,
       (chooseSolution rand).room]).Perm
      (suspects ++ weapons ++ gameRooms)) := by
    rw [← Multiset.coe_eq_coe, ← Multiset.coe_add, ← Multiset.coe_add,
      ← Multiset.coe_add]
    have m1 : ((((initializeGameState rand pids).playerCards.map Prod.snd).flatten :
        List String) : Multiset String) =
        ↑(suspects.filter (fun x => x ≠ (chooseSolution rand).suspect)) +
        ↑(weapons.filter (fun x => x ≠ (chooseSolution rand).weapon)) +
        ↑(gameRooms.filter (fun x => x ≠ (chooseSolution rand).room)) := by
      rw [Multiset.coe_add, Multiset.coe_add]
      exact Multiset.coe_eq_coe.mpr hflatperm
    have mS : ((suspects : List String) : Multiset String) =
        ↑[(chooseSolution rand).suspect] +
        ↑(suspects.filter (fun x => x ≠ (chooseSolution rand).suspect)) := by
      rw [Multiset.coe_add]
      exact Multiset.coe_eq_coe.mpr hcatS
    have mW : ((weapons : List String) : Multiset String) =
        ↑[(chooseSolution rand).weapon] +
        ↑(weapons.filter (fun x => x ≠ (chooseSolution rand).weapon)) := by
      rw [Multiset.coe_add]
      exact Multiset.coe_eq_coe.mpr hcatW
    have mR : ((gameRooms : List String) : Multiset String) =
        ↑[(chooseSolution rand).room] +
        ↑(gameRooms.filter (fun x => x ≠ (chooseSolution rand).room)) := by
      rw [Multiset.coe_add]
      exact Multiset.coe_eq_coe.mpr hcatR
    have mtriple : (([(chooseSolution rand).suspect, (chooseSolution rand).weapon,
        (chooseSolution rand).room] : List String) : Multiset String) =
        ↑[(chooseSolution rand).suspect] + ↑[(chooseSolution rand).weapon] +
        ↑[(chooseSolution rand).room] := by
      rw [Multiset.coe_add, Multiset.coe_add]
      rfl
    rw [m1, mS, mW, mR, mtriple]
    abel
  refine ⟨hP, ?_, ?_⟩
  · have hcatnd : (suspects ++ weapons ++ gameRooms).Nodup := by decide
    have hnd2 := hP.nodup_iff.mpr hcatnd
    have hflatnd :
        ((((initializeGameState rand pids).playerCards.map Prod.snd).flatten)).Nodup :=
      (List.sublist_append_left _ _).nodup hnd2
    exact (List.nodup_flatten.mp hflatnd).2
  · intro h1 hm1 h2 hm2
    obtain ⟨kv1, hkv1, rfl⟩ := List.mem_map.mp hm1
    obtain ⟨kv2, hkv2, rfl⟩ := List.mem_map.mp hm2
    obtain ⟨k1, hk1, e1⟩ := initializeGame_hand_len rand pids hnd hpos kv1 hkv1
    obtain ⟨k2, hk2, e2⟩ := initializeGame_hand_len rand pids hnd hpos kv2 hkv2
    rw [e1, e2]
    split_ifs <;> omega

/-- C1 witness: a concrete two-player deal. -/
theorem claim_C1_witness :
    ([1, 2] : List Nat).Nodup ∧ 2 ≤ ([1, 2] : List Nat).length ∧
    ([1, 2] : List Nat).length ≤ 6 ∧
    (((((initializeGameState ⟨0, 0, 0, []⟩ [1, 2]).playerCards.map Prod.snd).flatten ++
        [(chooseSolution ⟨0, 0, 0, []⟩).suspect, (chooseSolution ⟨0, 0, 0, []⟩).weapon,
         (chooseSolution ⟨0, 0, 0, []⟩).room]).Perm
      (suspects ++ weapons ++ gameRooms))
    ∧ List.Pairwise List.Disjoint
        ((initializeGameState ⟨0, 0, 0, []⟩ [1, 2]).playerCards.map Prod.snd)
    ∧ ∀ h1 ∈ (initializeGameState ⟨0, 0, 0, []⟩ [1, 2]).playerCards.map Prod.snd,
        ∀ h2 ∈ (initializeGameState ⟨0, 0, 0, []⟩ [1, 2]).playerCards.map Prod.snd,
          h1.length ≤ h2.length + 1) :=
  ⟨by decide, by decide, by decide,
    claim_C1 ⟨0, 0, 0, []⟩ [1, 2] (by decide) (by decide) (by decide)⟩

/-- C10: in a room whose game was never initialized (the game-state object
is still the empty object stored by `createRoom`, so it has no
`currentTurn` field), both `end_turn` and `make_accusation` from a bound
in-room sender are rejected with a unicast "Not your turn" error and no
state change: the turn comparison against the absent field never
succeeds. -/
theorem claim_C10 (S : SystemState) (cid : String) (c : WSClient) (pid : Nat)
    (rc : String) (room : Room)
    (hc : lookupClient S cid = some c) (hpid : c.playerId = some pid)
    (hrc : c.roomCode = some rc) (hroom : getRoomByCode S rc = some room)
    (hturn : room.gameState.currentTurn = none) (s w r : String) :
    step S (.endTurn cid) =
      { S with outbox := S.outbox ++ [(cid, Msg.errorMsg "Not your turn")] }
    ∧ step S (.makeAccusation cid s w r) =
      { S with outbox := S.outbox ++ [(cid, Msg.errorMsg "Not your turn")] } := by
  constructor
  · simp only [step, handleEndTurn, hc, hpid, hrc, getRoomGameState, hroom,
      Option.map_some', hturn]
    simp only [sendToClient, hc]
  · simp only [step, handleMakeAccusation, hc, hpid, hrc, getRoomGameState, hroom,
      Option.map_some', hturn]
    have hm : turnMatches ((getPlayersByRoomCode S rc).findIdx?
        (fun p => p.id == pid)) none = false := by
      cases ((getPlayersByRoomCode S rc).findIdx? (fun p => p.id == pid)) <;> rfl
    rw [hm, if_pos Bool.false_ne_true]
    simp only [sendToClient, hc]

/-- C10 witness: on a freshly created room, `end_turn` is rejected with
"Not your turn". -/
theorem claim_C10_witness :
    (({ id := 1, code := "ABCDEF", status := "waiting", playersCount := 1
        maxPlayers := 6, minPlayers := 2, gameState := emptyGameState } :
        Room).gameState.currentTurn = none) ∧
    step (run initState [.connect "c1", .register "c1" "alice",
        .createRoom "c1" "ABCDEF"]) (.endTurn "c1") =
      { run initState [.connect "c1", .register "c1" "alice",
          .createRoom "c1" "ABCDEF"] with
        outbox := (run initState [.connect "c1", .register "c1" "alice",
          .createRoom "c1" "ABCDEF"]).outbox ++
            [("c1", Msg.errorMsg "Not your turn")] } :=
  ⟨rfl,
    (claim_C10 (run initState [.connect "c1", .register "c1" "alice",
        .createRoom "c1" "ABCDEF"]) "c1"
      ⟨"c1", some 1, some "ABCDEF", some "alice"⟩ 1 "ABCDEF"
      { id := 1, code := "ABCDEF", status := "waiting", playersCount := 1
        maxPlayers := 6, minPlayers := 2, gameState := emptyGameState }
      (by decide) rfl rfl (by decide) rfl "miss_scarlet" "rope" "hall").1⟩

/-! ## Basic facts about the state operations -/

@[simp] theorem sendToClient_clients (S : SystemState) (cid : String) (m : Msg) :
    (sendToClient S cid m).clients = S.clients := by
  unfold sendToClient; cases lookupClient S cid <;> rfl

@[simp] theorem sendToClient_players (S : SystemState) (cid : String) (m : Msg) :
    (sendToClient S cid m).players = S.players := by
  unfold sendToClient; cases lookupClient S cid <;> rfl

@[simp] theorem sendToClient_rooms (S : SystemState) (cid : String) (m : Msg) :
    (sendToClient S cid m).rooms = S.rooms := by
  unfold sendToClient; cases lookupClient S cid <;> rfl

@[simp] theorem sendToClient_subs (S : SystemState) (cid : String) (m : Msg) :
    (sendToClient S cid m).roomSubscriptions = S.roomSubscriptions := by
  unfold sendToClient; cases lookupClient S cid <;> rfl

@[simp] theorem sendToClient_pidc (S : SystemState) (cid : String) (m : Msg) :
    (sendToClient S cid m).playerIdCounter = S.playerIdCounter := by
  unfold sendToClient; cases lookupClient S cid <;> rfl

@[simp] theorem sendToClient_ridc (S : SystemState) (cid : String) (m : Msg) :
    (sendToClient S cid m).roomIdCounter = S.roomIdCounter := by
  unfold sendToClient; cases lookupClient S cid <;> rfl

@[simp] theorem lookupClient_sendToClient (S : SystemState) (cid x : String) (m : Msg) :
    lookupClient (sendToClient S cid m) x = lookupClient S x := by
  unfold lookupClient; rw [sendToClient_clients]

theorem sendToClient_outbox_mem (S : SystemState) (cid : String) (m : Msg)
    (e : String × Msg) (he : e ∈ S.outbox) : e ∈ (sendToClient S cid m).outbox := by
  unfold sendToClient; cases lookupClient S cid
  · exact he
  · exact List.mem_append_left _ he

theorem foldl_send_clients (m : Msg) :
    ∀ (ms : List String) (S : SystemState),
      (ms.foldl (fun s c => sendToClient s c m) S).clients = S.clients
  | [], _ => rfl
  | c :: cs, S => by
    rw [List.foldl_cons, foldl_send_clients m cs, sendToClient_clients]

theorem foldl_send_players (m : Msg) :
    ∀ (ms : List String) (S : SystemState),
      (ms.foldl (fun s c => sendToClient s c m) S).players = S.players
  | [], _ => rfl
  | c :: cs, S => by
    rw [List.foldl_cons, foldl_send_players m cs, sendToClient_players]

theorem foldl_send_rooms (m : Msg) :
    ∀ (ms : List String) (S : SystemState),
      (ms.foldl (fun s c => sendToClient s c m) S).rooms = S.rooms
  | [], _ => rfl
  | c :: cs, S => by
    rw [List.foldl_cons, foldl_send_rooms m cs, sendToClient_rooms]

theorem foldl_send_subs (m : Msg) :
    ∀ (ms : List String) (S : SystemState),
      (ms.foldl (fun s c => sendToClient s c m) S).roomSubscriptions =
        S.roomSubscriptions
  | [], _ => rfl
  | c :: cs, S => by
    rw [List.foldl_cons, foldl_send_subs m cs, sendToClient_subs]

theorem foldl_send_outbox_mem (m : Msg) :
    ∀ (ms : List String) (S : SystemState) (e : String × Msg),
      e ∈ S.outbox → e ∈ (ms.foldl (fun s c => sendToClient s c m) S).outbox
  | [], _, _, he => he
  | c :: cs, S, e, he => by
    rw [List.foldl_cons]
    exact foldl_send_outbox_mem m cs _ e (sendToClient_outbox_mem S c m e he)

theorem foldl_send_outbox_new (m : Msg) :
    ∀ (ms : List String) (S : SystemState) (x : String),
      x ∈ ms → (lookupClient S x).isSome →
      (x, m) ∈ (ms.foldl (fun s c => sendToClient s c m) S).outbox
  | [], _, _, hx, _ => by simp at hx
  | c :: cs, S, x, hx, hlive => by
    rw [List.foldl_cons]
    by_cases hxc : x = c
    · subst hxc
      apply foldl_send_outbox_mem
      unfold sendToClient
      cases hl : lookupClient S x
      · rw [hl] at hlive; simp at hlive
      · simp
    · have hx' : x ∈ cs := by
        rcases List.mem_cons.mp hx with h | h
        · exact absurd h hxc
        · exact h
      exact foldl_send_outbox_new m cs _ x hx'
        (by rw [lookupClient_sendToClient]; exact hlive)

@[simp] theorem broadcast_clients (S : SystemState) (rc : String) (m : Msg) :
    (broadcastToRoom S rc m).clients = S.clients :=
  foldl_send_clients m _ S

@[simp] theorem broadcast_players (S : SystemState) (rc : String) (m : Msg) :
    (broadcastToRoom S rc m).players = S.players :=
  foldl_send_players m _ S

@[simp] theorem broadcast_rooms (S : SystemState) (rc : String) (m : Msg) :
    (broadcastToRoom S rc m).rooms = S.rooms :=
  foldl_send_rooms m _ S

@[simp] theorem broadcast_subs (S : SystemState) (rc : String) (m : Msg) :
    (broadcastToRoom S rc m).roomSubscriptions = S.roomSubscriptions :=
  foldl_send_subs m _ S

theorem broadcast_outbox_mem (S : SystemState) (rc : String) (m : Msg)
    (e : String × Msg) (he : e ∈ S.outbox) : e ∈ (broadcastToRoom S rc m).outbox :=
  foldl_send_outbox_mem m _ S e he

theorem broadcast_outbox_new (S : SystemState) (rc : String) (m : Msg)
    (x : String) (hx : x ∈ getRoomClients S rc) (hlive : (lookupClient S x).isSome) :
    (x, m) ∈ (broadcastToRoom S rc m).outbox :=
  foldl_send_outbox_new m _ S x hx hlive

@[simp] theorem lookupClient_broadcast (S : SystemState) (rc x : String) (m : Msg) :
    lookupClient (broadcastToRoom S rc m) x = lookupClient S x := by
  unfold lookupClient; rw [broadcast_clients]

@[simp] theorem getRoomByCode_broadcast (S : SystemState) (rc x : String) (m : Msg) :
    getRoomByCode (broadcastToRoom S rc m) x = getRoomByCode S x := by
  unfold getRoomByCode; rw [broadcast_rooms]

@[simp] theorem getRoomClients_broadcast (S : SystemState) (rc x : String) (m : Msg) :
    getRoomClients (broadcastToRoom S rc m) x = getRoomClients S x := by
  unfold getRoomClients; rw [broadcast_subs]

@[simp] theorem getPlayersByRoomCode_broadcast (S : SystemState) (rc x : String)
    (m : Msg) : getPlayersByRoomCode (broadcastToRoom S rc m) x =
      getPlayersByRoomCode S x := by
  unfold getPlayersByRoomCode; rw [broadcast_players]

@[simp] theorem getPlayer_broadcast (S : SystemState) (rc : String) (pid : Nat)
    (m : Msg) : getPlayer (broadcastToRoom S rc m) pid = getPlayer S pid := by
  unfold getPlayer; rw [broadcast_players]

@[simp] theorem updateRoomF_players (S : SystemState) (rid : Nat) (f : Room → Room) :
    (updateRoomF S rid f).players = S.players := rfl

@[simp] theorem updateRoomF_clients (S : SystemState) (rid : Nat) (f : Room → Room) :
    (updateRoomF S rid f).clients = S.clients := rfl

@[simp] theorem updateRoomF_subs (S : SystemState) (rid : Nat) (f : Room → Room) :
    (updateRoomF S rid f).roomSubscriptions = S.roomSubscriptions := rfl

@[simp] theorem updateRoomF_outbox (S : SystemState) (rid : Nat) (f : Room → Room) :
    (updateRoomF S rid f).outbox = S.outbox := rfl

@[simp] theorem updateRoomF_rooms (S : SystemState) (rid : Nat) (f : Room → Room) :
    (updateRoomF S rid f).rooms =
      S.rooms.map (fun r => if r.id = rid then f r else r) := rfl

@[simp] theorem lookupClient_updateRoomF (S : SystemState) (rid : Nat)
    (f : Room → Room) (x : String) :
    lookupClient (updateRoomF S rid f) x = lookupClient S x := rfl

@[simp] theorem getRoomClients_updateRoomF (S : SystemState) (rid : Nat)
    (f : Room → Room) (x : String) :
    getRoomClients (updateRoomF S rid f) x = getRoomClients S x := rfl

/-- Looking a room up by code after an update that keeps every room code
finds the image of the previously found room. -/
theorem getRoomByCode_updateRoomF (S : SystemState) (rid : Nat) (f : Room → Room)
    (hf : ∀ r, (f r).code = r.code) (x : String) :
    getRoomByCode (updateRoomF S rid f) x =
      (getRoomByCode S x).map (fun r => if r.id = rid then f r else r) := by
  unfold getRoomByCode
  rw [updateRoomF_rooms, List.find?_map]
  have hpg : ((fun r => r.code == x) ∘ fun r => if r.id = rid then f r else r)
      = (fun r : Room => r.code == x) := by
    funext r
    simp only [Function.comp]
    by_cases h : r.id = rid <;> simp [h, hf]
  rw [hpg]

@[simp] theorem accResult_beq_bool_true (b : Bool) :
    (AccResult.bool b == AccResult.bool true) = b := by
  cases b <;> rfl

/-- C2: a final accusation in a room with an initialized game broadcasts
`final_accusation_result` whose `correct` flag is true exactly when all
three fields equal the hidden solution (case-sensitive); when correct the
room status becomes `ended` and `game_ended` with the solution is
broadcast, otherwise the rooms (hence the status) are untouched; no
player, client or subscription state changes either way. -/
theorem claim_C2 (S : SystemState) (cid : String) (c : WSClient) (pid : Nat)
    (rc : String) (room : Room) (sol : Solution)
    (hc : lookupClient S cid = some c) (hpid : c.playerId = some pid)
    (hrc : c.roomCode = some rc) (hroom : getRoomByCode S rc = some room)
    (hsol : room.gameState.solution = some sol) (s w r : String) :
    (((s == sol.suspect && w == sol.weapon && r == sol.room) = true) ↔
      (s = sol.suspect ∧ w = sol.weapon ∧ r = sol.room))
    ∧ (∀ x ∈ getRoomClients S rc, (lookupClient S x).isSome →
        (x, Msg.finalAccusationResult pid s w r
          (s == sol.suspect && w == sol.weapon && r == sol.room)) ∈
          (step S (.makeFinalAccusation cid s w r)).outbox)
    ∧ ((s = sol.suspect ∧ w = sol.weapon ∧ r = sol.room) →
        (step S (.makeFinalAccusation cid s w r)).rooms =
          S.rooms.map (fun rr => if rr.id = room.id then
            { rr with status := "ended" } else rr)
        ∧ ∀ x ∈ getRoomClients S rc, (lookupClient S x).isSome →
            (x, Msg.gameEnded pid (some sol)) ∈
              (step S (.makeFinalAccusation cid s w r)).outbox)
    ∧ (¬(s = sol.suspect ∧ w = sol.weapon ∧ r = sol.room) →
        (step S (.makeFinalAccusation cid s w r)).rooms = S.rooms)
    ∧ (step S (.makeFinalAccusation cid s w r)).players = S.players
    ∧ (step S (.makeFinalAccusation cid s w r)).clients = S.clients
    ∧ (step S (.makeFinalAccusation cid s w r)).roomSubscriptions =
        S.roomSubscriptions := by
  have hiff : ((s == sol.suspect && w == sol.weapon && r == sol.room) = true) ↔
      (s = sol.suspect ∧ w = sol.weapon ∧ r = sol.room) := by
    simp [Bool.and_eq_true, and_assoc]
  have hchk : checkAccusation S rc
      { playerId := pid, suspect := s, weapon := w, room := r, isFinal := true } =
      .ok (.bool (s == sol.suspect && w == sol.weapon && r == sol.room)) := by
    simp only [checkAccusation, getRoomGameState, hroom, Option.map_some']
    rw [if_pos trivial, hsol]
  have hcodef : ∀ rr : Room, ({ rr with status := "ended" } : Room).code = rr.code :=
    fun _ => rfl
  have hstep : step S (.makeFinalAccusation cid s w r) =
      (if (s == sol.suspect && w == sol.weapon && r == sol.room) then
        broadcastToRoom
          (updateRoomF (broadcastToRoom S rc (.finalAccusationResult pid s w r
            (s == sol.suspect && w == sol.weapon && r == sol.room)))
            room.id fun rr => { rr with status := "ended" })
          rc (.gameEnded pid (some sol))
      else broadcastToRoom S rc (.finalAccusationResult pid s w r
        (s == sol.suspect && w == sol.weapon && r == sol.room))) := by
    simp only [step, handleMakeFinalAccusation, hc, hpid, hrc, hchk,
      accResult_beq_bool_true]
    cases hb : (s == sol.suspect && w == sol.weapon && r == sol.room)
    · simp
    · simp only [if_true]
      rw [getRoomByCode_broadcast, hroom]
      simp only [getRoomGameState, getRoomByCode_updateRoomF _ _ _ hcodef,
        getRoomByCode_broadcast, hroom, Option.map_some', if_pos rfl]
      simp only [if_true, Option.some_bind]
      rw [hsol]
  refine ⟨hiff, ?_, ?_, ?_, ?_, ?_, ?_⟩
  · intro x hx hlive
    rw [hstep]
    cases hb : (s == sol.suspect && w == sol.weapon && r == sol.room)
    · rw [if_neg Bool.false_ne_true]
      exact broadcast_outbox_new S rc _ x hx hlive
    · rw [if_pos rfl]
      apply broadcast_outbox_mem
      show _ ∈ (updateRoomF _ _ _).outbox
      rw [updateRoomF_outbox]
      exact broadcast_outbox_new S rc _ x hx hlive
  · intro hcorrect
    have hb : (s == sol.suspect && w == sol.weapon && r == sol.room) = true :=
      hiff.mpr hcorrect
    rw [hstep, if_pos hb]
    constructor
    · rw [broadcast_rooms, updateRoomF_rooms, broadcast_rooms]
    · intro x hx hlive
      apply broadcast_outbox_new
      · rw [getRoomClients_updateRoomF, getRoomClients_broadcast]
        exact hx
      · rw [lookupClient_updateRoomF, lookupClient_broadcast]
        exact hlive
  · intro hwrong
    have hb : (s == sol.suspect && w == sol.weapon && r == sol.room) = false := by
      cases hx : (s == sol.suspect && w == sol.weapon && r == sol.room)
      · rfl
      · exact absurd (hiff.mp hx) hwrong
    rw [hstep, if_neg (by rw [hb]; exact Bool.false_ne_true), broadcast_rooms]
  · rw [hstep]; split <;> simp
  · rw [hstep]; split <;> simp
  · rw [hstep]; split <;> simp

/-- C2 witness: on the concrete two-player game, a final accusation equal
to the dealt solution flips the room status to `ended`. -/
theorem claim_C2_witness :
    ("colonel_mustard" = (⟨"colonel_mustard", "knife", "study"⟩ : Solution).suspect ∧
     "knife" = (⟨"colonel_mustard", "knife", "study"⟩ : Solution).weapon ∧
     "study" = (⟨"colonel_mustard", "knife", "study"⟩ : Solution).room) ∧
    (step (run initState twoPlayerTrace)
        (.makeFinalAccusation "c1" "colonel_mustard" "knife" "study")).rooms =
      (run initState twoPlayerTrace).rooms.map (fun rr =>
        if rr.id = ((getRoomByCode (run initState twoPlayerTrace) "ABCDEF").getD
            ⟨0, "", "", 0, 0, 0, {}⟩).id then { rr with status := "ended" } else rr) :=
  ⟨⟨rfl, rfl, rfl⟩,
    ((claim_C2 (run initState twoPlayerTrace) "c1"
      ⟨"c1", some 1, some "ABCDEF", some "alice"⟩ 1 "ABCDEF"
      ((getRoomByCode (run initState twoPlayerTrace) "ABCDEF").getD
        ⟨0, "", "", 0, 0, 0, {}⟩)
      ⟨"colonel_mustard", "knife", "study"⟩
      (by decide) rfl rfl (by decide) (by decide)
      "colonel_mustard" "knife" "study").2.2.1 ⟨rfl, rfl, rfl⟩).1⟩

theorem disproveSearch_stands (pc : List (Nat × List String)) (acc : Accusation) :
    ∀ others : List Player,
      (∀ p ∈ others, ∀ hand, pc.lookup p.id = some hand →
        acc.suspect ∉ hand ∧ acc.weapon ∉ hand ∧ acc.room ∉ hand) →
      disproveSearch pc acc others = .bool true
  | [], _ => rfl
  | p :: rest, h => by
    have ih := disproveSearch_stands pc acc rest
      (fun q hq => h q (List.mem_cons_of_mem p hq))
    unfold disproveSearch
    cases hl : pc.lookup p.id with
    | none => exact ih
    | some hand =>
      obtain ⟨h1, h2, h3⟩ := h p (List.mem_cons_self p rest) hand hl
      simpa [h1, h2, h3] using ih

theorem disproveSearch_first (pc : List (Nat × List String)) (acc : Accusation) :
    ∀ (pre : List Player) (p : Player) (post : List Player) (hand : List String),
      (∀ q ∈ pre, ∀ h2, pc.lookup q.id = some h2 →
        acc.suspect ∉ h2 ∧ acc.weapon ∉ h2 ∧ acc.room ∉ h2) →
      pc.lookup p.id = some hand →
      (acc.suspect ∈ hand ∨ acc.weapon ∈ hand ∨ acc.room ∈ hand) →
      disproveSearch pc acc (pre ++ p :: post) = .disproof
        (if acc.suspect ∈ hand then "suspect"
         else if acc.weapon ∈ hand then "weapon" else "room")
        (if acc.suspect ∈ hand then acc.suspect
         else if acc.weapon ∈ hand then acc.weapon else acc.room)
        p.id
  | [], p, post, hand, _, hl, hholds => by
    simp only [List.nil_append]
    unfold disproveSearch
    rw [hl]
    by_cases h1 : acc.suspect ∈ hand
    · simp [h1]
    · by_cases h2 : acc.weapon ∈ hand
      · simp [h1, h2]
      · have h3 : acc.room ∈ hand := by tauto
        simp [h1, h2, h3]
  | q :: pre, p, post, hand, hsafe, hl, hholds => by
    have ih := disproveSearch_first pc acc pre p post hand
      (fun q2 hq2 => hsafe q2 (List.mem_cons_of_mem q hq2)) hl hholds
    simp only [List.cons_append]
    unfold disproveSearch
    cases hlq : pc.lookup q.id with
    | none => exact ih
    | some h2 =>
      obtain ⟨hs1, hs2, hs3⟩ := hsafe q (List.mem_cons_self q pre) h2 hlq
      simpa [hs1, hs2, hs3] using ih

/-- C3: a suggestion (non-final accusation) evaluated against an existing
game state stands (returns boolean true) exactly when no in-room player
other than the accuser holds any of the three accused cards in their dealt
hand; otherwise the result names the first holder in the room player
enumeration order (the order fixed at game start) together with exactly
one matching card, chosen suspect before weapon before room. -/
theorem claim_C3 (S : SystemState) (rc : String) (acc : Accusation)
    (gs : GameStateJS) (hgs : getRoomGameState S rc = some gs)
    (hfin : acc.isFinal = false) :
    ((∀ p ∈ (getPlayersByRoomCode S rc).filter (fun p => p.id ≠ acc.playerId),
        ∀ hand, gs.playerCards.lookup p.id = some hand →
          acc.suspect ∉ hand ∧ acc.weapon ∉ hand ∧ acc.room ∉ hand) →
      checkAccusation S rc acc = .ok (.bool true))
    ∧ (∀ pre p post hand,
        (getPlayersByRoomCode S rc).filter (fun q => q.id ≠ acc.playerId) =
          pre ++ p :: post →
        (∀ q ∈ pre, ∀ h2, gs.playerCards.lookup q.id = some h2 →
          acc.suspect ∉ h2 ∧ acc.weapon ∉ h2 ∧ acc.room ∉ h2) →
        gs.playerCards.lookup p.id = some hand →
        (acc.suspect ∈ hand ∨ acc.weapon ∈ hand ∨ acc.room ∈ hand) →
        checkAccusation S rc acc = .ok (.disproof
          (if acc.suspect ∈ hand then "suspect"
           else if acc.weapon ∈ hand then "weapon" else "room")
          (if acc.suspect ∈ hand then acc.suspect
           else if acc.weapon ∈ hand then acc.weapon else acc.room)
          p.id)) := by
  have hbase : checkAccusation S rc acc = .ok (disproveSearch gs.playerCards acc
      ((getPlayersByRoomCode S rc).filter (fun q => q.id ≠ acc.playerId))) := by
    simp only [checkAccusation, hgs]
    rw [if_neg (by rw [hfin]; exact Bool.false_ne_true)]
  constructor
  · intro hall
    rw [hbase, disproveSearch_stands gs.playerCards acc _ hall]
  · intro pre p post hand hsplit hsafe hl hholds
    rw [hbase, hsplit, disproveSearch_first gs.playerCards acc pre p post hand
      hsafe hl hholds]

/-- C3 witness: in the concrete two-player game, a suggestion by the host
naming a suspect held by the guest is disproved by the guest with that
suspect card. -/
theorem claim_C3_witness :
    ((⟨1, "mrs_peacock", "knife", "study", false⟩ : Accusation).isFinal = false) ∧
    checkAccusation (run initState twoPlayerTrace) "ABCDEF"
        ⟨1, "mrs_peacock", "knife", "study", false⟩ =
      .ok (.disproof "suspect" "mrs_peacock" 2) := by
  refine ⟨rfl, ?_⟩
  have h := (claim_C3 (run initState twoPlayerTrace) "ABCDEF"
    ⟨1, "mrs_peacock", "knife", "study", false⟩
    ((getRoomGameState (run initState twoPlayerTrace) "ABCDEF").getD {})
    (by decide) rfl).2 []
    { id := 2, name := "bob", sessionId := "c2", roomCode := some "ABCDEF"
      ready := true, isHost := false, points := 0 } []
    ["mrs_peacock", "mrs_white", "revolver", "wrench", "hall", "library",
     "dining_room", "kitchen"]
    (by decide) (by intro q hq; simp at hq) (by decide) (by decide)
  rw [h]
  decide

theorem getRoomGameState_updateRoomGameState (S : SystemState) (rc : String)
    (room : Room) (gs : GameStateJS) (hroom : getRoomByCode S rc = some room) :
    getRoomGameState (updateRoomGameState S rc gs) rc = some gs := by
  simp only [updateRoomGameState, hroom]
  unfold getRoomGameState
  rw [getRoomByCode_updateRoomF S room.id (fun r => { r with gameState := gs })
    (fun _ => rfl) rc, hroom]
  simp

/-- C4 counterexample: in the three-player game of `c4Trace`, alice ended
her turn (currentTurn = 1) and carol disconnected; bob (live index 1) then
ends his turn and currentTurn becomes (1+1) mod 2 = 0 — not
(1+1) mod 3 = 2 as the claim predicts from the original three-slot list,
which is still visible as the three dealt hands in the game state. -/
theorem claim_C4_counterexample :
    ((getRoomGameState (run initState c4Trace) "ABCDEF").map
      (fun gs => (gs.currentTurn, gs.playerCards.length)) = some (some 1, 3)) ∧
    ((getRoomGameState (run initState (c4Trace ++ [.endTurn "c2"])) "ABCDEF").map
      (fun gs => gs.currentTurn) = some (some 0)) ∧
    (getPlayersByRoomCode (run initState c4Trace) "ABCDEF").length = 2 ∧
    some ((1 + 1) % 3) ≠ (some 0 : Option Nat) := by
  refine ⟨by decide, by decide, by decide, by decide⟩

/-- C4 as amended: an accepted `end_turn` advances `currentTurn` to
(currentTurn + 1) mod the length of the live in-room player list at the
time of the call — not the original game-start list, which players leave
when they disconnect or exit the room. -/
theorem claim_C4_amended (S : SystemState) (cid : String) (c : WSClient)
    (pid : Nat) (rc : String) (gs : GameStateJS) (cur : Nat)
    (hc : lookupClient S cid = some c) (hpid : c.playerId = some pid)
    (hrc : c.roomCode = some rc) (hgs : getRoomGameState S rc = some gs)
    (hcur : gs.currentTurn = some cur)
    (hidx : (getPlayersByRoomCode S rc).findIdx? (fun p => p.id == pid) = some cur) :
    getRoomGameState (step S (.endTurn cid)) rc =
      some { gs with
        currentTurn := some ((cur + 1) % (getPlayersByRoomCode S rc).length) } := by
  have hroom : ∃ room, getRoomByCode S rc = some room := by
    unfold getRoomGameState at hgs
    cases h : getRoomByCode S rc
    · rw [h] at hgs; simp at hgs
    · exact ⟨_, rfl⟩
  obtain ⟨room, hroom⟩ := hroom
  simp only [step, handleEndTurn, hc, hpid, hrc, hgs, hcur, hidx]
  rw [show turnMatches (some cur) (some cur) = true by simp [turnMatches]]
  rw [if_neg (not_not_intro rfl)]
  unfold getRoomGameState
  rw [getRoomByCode_broadcast]
  have := getRoomGameState_updateRoomGameState S rc room
    { gs with currentTurn := some ((cur + 1) % (getPlayersByRoomCode S rc).length) }
    hroom
  unfold getRoomGameState at this
  exact this

/-- C4 witness: in the two-player game, alice (index 0, currentTurn 0)
ends her turn and currentTurn becomes 1 mod 2 = 1. -/
theorem claim_C4_witness :
    ((getRoomGameState (run initState twoPlayerTrace) "ABCDEF").map
      (fun gs => gs.currentTurn) = some (some 0)) ∧
    getRoomGameState (step (run initState twoPlayerTrace) (.endTurn "c1")) "ABCDEF" =
      some { ((getRoomGameState (run initState twoPlayerTrace) "ABCDEF").getD {}) with
        currentTurn := some ((0 + 1) %
          (getPlayersByRoomCode (run initState twoPlayerTrace) "ABCDEF").length) } :=
  ⟨by decide,
    claim_C4_amended (run initState twoPlayerTrace) "c1"
      ⟨"c1", some 1, some "ABCDEF", some "alice"⟩ 1 "ABCDEF"
      ((getRoomGameState (run initState twoPlayerTrace) "ABCDEF").getD {}) 0
      (by decide) rfl rfl (by decide) (by decide) (by decide)⟩

/-! ## More facts about the state operations -/

@[simp] theorem updatePlayerF_players (S : SystemState) (pid : Nat) (f : Player → Player) :
    (updatePlayerF S pid f).players =
      S.players.map (fun p => if p.id = pid then f p else p) := rfl

@[simp] theorem updatePlayerF_clients (S : SystemState) (pid : Nat) (f : Player → Player) :
    (updatePlayerF S pid f).clients = S.clients := rfl

@[simp] theorem updatePlayerF_rooms (S : SystemState) (pid : Nat) (f : Player → Player) :
    (updatePlayerF S pid f).rooms = S.rooms := rfl

@[simp] theorem updatePlayerF_subs (S : SystemState) (pid : Nat) (f : Player → Player) :
    (updatePlayerF S pid f).roomSubscriptions = S.roomSubscriptions := rfl

@[simp] theorem updatePlayerF_outbox (S : SystemState) (pid : Nat) (f : Player → Player) :
    (updatePlayerF S pid f).outbox = S.outbox := rfl

@[simp] theorem getRoomClients_updatePlayerF (S : SystemState) (pid : Nat)
    (f : Player → Player) (x : String) :
    getRoomClients (updatePlayerF S pid f) x = getRoomClients S x := rfl

@[simp] theorem updateClient_players (S : SystemState) (cid : String) (f : WSClient → WSClient) :
    (updateClient S cid f).players = S.players := rfl

@[simp] theorem updateClient_rooms (S : SystemState) (cid : String) (f : WSClient → WSClient) :
    (updateClient S cid f).rooms = S.rooms := rfl

@[simp] theorem updateClient_subs (S : SystemState) (cid : String) (f : WSClient → WSClient) :
    (updateClient S cid f).roomSubscriptions = S.roomSubscriptions := rfl

@[simp] theorem updateClient_outbox (S : SystemState) (cid : String) (f : WSClient → WSClient) :
    (updateClient S cid f).outbox = S.outbox := rfl

@[simp] theorem addToRoom_players (S : SystemState) (cid rc : String) :
    (addToRoom S cid rc).players = S.players := by
  unfold addToRoom; split <;> rfl

@[simp] theorem addToRoom_clients (S : SystemState) (cid rc : String) :
    (addToRoom S cid rc).clients = S.clients := by
  unfold addToRoom; split <;> rfl

@[simp] theorem addToRoom_rooms (S : SystemState) (cid rc : String) :
    (addToRoom S cid rc).rooms = S.rooms := by
  unfold addToRoom; split <;> rfl

@[simp] theorem addToRoom_outbox (S : SystemState) (cid rc : String) :
    (addToRoom S cid rc).outbox = S.outbox := by
  unfold addToRoom; split <;> rfl

@[simp] theorem removeFromRoom_players (S : SystemState) (cid rc : String) :
    (removeFromRoom S cid rc).players = S.players := rfl

@[simp] theorem removeFromRoom_clients (S : SystemState) (cid rc : String) :
    (removeFromRoom S cid rc).clients = S.clients := rfl

@[simp] theorem removeFromRoom_rooms (S : SystemState) (cid rc : String) :
    (removeFromRoom S cid rc).rooms = S.rooms := rfl

@[simp] theorem removeFromRoom_outbox (S : SystemState) (cid rc : String) :
    (removeFromRoom S cid rc).outbox = S.outbox := rfl

theorem lookupClient_updateClient (S : SystemState) (cid : String)
    (f : WSClient → WSClient) (hf : ∀ cl, (f cl).id = cl.id) (x : String) :
    lookupClient (updateClient S cid f) x =
      (lookupClient S x).map (fun cl => if cl.id = cid then f cl else cl) := by
  unfold lookupClient updateClient
  rw [List.find?_map]
  have hpg : ((fun cl : WSClient => cl.id == x) ∘ fun cl => if cl.id = cid then f cl else cl)
      = (fun cl : WSClient => cl.id == x) := by
    funext cl
    simp only [Function.comp]
    by_cases h : cl.id = cid <;> simp [h, hf]
  rw [hpg]

/-- After removing a subscriber from a room entry, it is no longer among
that room's subscribers. -/
theorem getRoomClients_removeFromRoom_self (S : SystemState) (cid rc : String) :
    cid ∉ getRoomClients (removeFromRoom S cid rc) rc := by
  unfold getRoomClients removeFromRoom
  intro hmem
  cases hfind : (((S.roomSubscriptions.map fun e =>
      if e.1 = rc then (e.1, e.2.filter (fun x => x ≠ cid)) else e).filter
        fun e => ¬(e.1 = rc ∧ e.2 = [])).find? fun e => e.1 == rc) with
  | none => rw [hfind] at hmem; simp at hmem
  | some e =>
    rw [hfind] at hmem
    simp only at hmem
    have hpred := List.find?_some hfind
    have hkey : e.1 = rc := by simpa using hpred
    have he1 : e ∈ (S.roomSubscriptions.map fun e2 =>
        if e2.1 = rc then (e2.1, e2.2.filter (fun x => x ≠ cid)) else e2) :=
      List.mem_of_mem_filter (List.mem_of_find?_eq_some hfind)
    obtain ⟨e0, _, he0⟩ := List.mem_map.mp he1
    by_cases h0 : e0.1 = rc
    · rw [if_pos h0] at he0
      rw [← he0] at hmem
      simp only at hmem
      have := List.of_mem_filter hmem
      simp at this
    · rw [if_neg h0] at he0
      rw [← he0] at hkey
      exact h0 hkey

theorem addToRoom_mem_old (S : SystemState) (cid rc x : String)
    (hx : x ∈ getRoomClients S rc) : x ∈ getRoomClients (addToRoom S cid rc) rc := by
  unfold getRoomClients at hx ⊢
  unfold addToRoom
  cases hfind : S.roomSubscriptions.find? (fun e => e.1 == rc) with
  | none => rw [hfind] at hx; simp at hx
  | some e =>
    rw [hfind] at hx
    simp only at hx
    have hpred := List.find?_some hfind
    rw [if_pos (show (some e : Option (String × List String)).isSome = true from rfl)]
    have hfind2 : ((S.roomSubscriptions.map fun e2 =>
        if e2.1 = rc then (e2.1, if cid ∈ e2.2 then e2.2 else e2.2 ++ [cid]) else e2).find?
          fun e2 => e2.1 == rc) = some (if e.1 = rc then
            (e.1, if cid ∈ e.2 then e.2 else e.2 ++ [cid]) else e) := by
      rw [List.find?_map]
      have hpg : ((fun e2 : String × List String => e2.1 == rc) ∘ fun e2 =>
          if e2.1 = rc then (e2.1, if cid ∈ e2.2 then e2.2 else e2.2 ++ [cid]) else e2)
          = (fun e2 : String × List String => e2.1 == rc) := by
        funext e2
        simp only [Function.comp]
        by_cases h : e2.1 = rc <;> simp [h]
      rw [hpg, hfind, Option.map_some']
    rw [hfind2]
    have hkey : e.1 = rc := by simpa using hpred
    rw [if_pos hkey]
    simp only
    by_cases hc : cid ∈ e.2
    · rw [if_pos hc]; exact hx
    · rw [if_neg hc]; exact List.mem_append_left _ hx

theorem addToRoom_mem_self (S : SystemState) (cid rc : String) :
    cid ∈ getRoomClients (addToRoom S cid rc) rc := by
  unfold getRoomClients addToRoom
  cases hfind : S.roomSubscriptions.find? (fun e => e.1 == rc) with
  | none =>
    rw [if_neg (by simp : ¬((none : Option (String × List String)).isSome = true))]
    simp only
    rw [List.find?_append, hfind]
    simp [List.find?]
  | some e =>
    have hpred := List.find?_some hfind
    have hkey : e.1 = rc := by simpa using hpred
    rw [if_pos (show (some e : Option (String × List String)).isSome = true from rfl)]
    have hfind2 : ((S.roomSubscriptions.map fun e2 =>
        if e2.1 = rc then (e2.1, if cid ∈ e2.2 then e2.2 else e2.2 ++ [cid]) else e2).find?
          fun e2 => e2.1 == rc) = some (if e.1 = rc then
            (e.1, if cid ∈ e.2 then e.2 else e.2 ++ [cid]) else e) := by
      rw [List.find?_map]
      have hpg : ((fun e2 : String × List String => e2.1 == rc) ∘ fun e2 =>
          if e2.1 = rc then (e2.1, if cid ∈ e2.2 then e2.2 else e2.2 ++ [cid]) else e2)
          = (fun e2 : String × List String => e2.1 == rc) := by
        funext e2
        simp only [Function.comp]
        by_cases h : e2.1 = rc <;> simp [h]
      rw [hpg, hfind, Option.map_some']
    rw [hfind2, if_pos hkey]
    simp only
    by_cases hc : cid ∈ e.2
    · rw [if_pos hc]; exact hc
    · rw [if_neg hc]; exact List.mem_append_right _ (List.mem_singleton_self cid)

/-! ## The disconnect notification loop -/

theorem folddc_clients (cid : String) (m : Msg) :
    ∀ (ms : List String) (S : SystemState),
      (ms.foldl (fun s mid => if mid = cid then s else sendToClient s mid m) S).clients
        = S.clients
  | [], _ => rfl
  | c :: cs, S => by
    rw [List.foldl_cons, folddc_clients cid m cs]
    split <;> simp

theorem folddc_players (cid : String) (m : Msg) :
    ∀ (ms : List String) (S : SystemState),
      (ms.foldl (fun s mid => if mid = cid then s else sendToClient s mid m) S).players
        = S.players
  | [], _ => rfl
  | c :: cs, S => by
    rw [List.foldl_cons, folddc_players cid m cs]
    split <;> simp

theorem folddc_rooms (cid : String) (m : Msg) :
    ∀ (ms : List String) (S : SystemState),
      (ms.foldl (fun s mid => if mid = cid then s else sendToClient s mid m) S).rooms
        = S.rooms
  | [], _ => rfl
  | c :: cs, S => by
    rw [List.foldl_cons, folddc_rooms cid m cs]
    split <;> simp

theorem folddc_subs (cid : String) (m : Msg) :
    ∀ (ms : List String) (S : SystemState),
      (ms.foldl (fun s mid => if mid = cid then s else sendToClient s mid m)
        S).roomSubscriptions = S.roomSubscriptions
  | [], _ => rfl
  | c :: cs, S => by
    rw [List.foldl_cons, folddc_subs cid m cs]
    split <;> simp

theorem folddc_outbox_mem (cid : String) (m : Msg) :
    ∀ (ms : List String) (S : SystemState) (e : String × Msg), e ∈ S.outbox →
      e ∈ (ms.foldl (fun s mid => if mid = cid then s else sendToClient s mid m)
        S).outbox
  | [], _, _, he => he
  | c :: cs, S, e, he => by
    rw [List.foldl_cons]
    refine folddc_outbox_mem cid m cs _ e ?_
    split
    · exact he
    · exact sendToClient_outbox_mem S c m e he

theorem folddc_outbox_new (cid : String) (m : Msg) :
    ∀ (ms : List String) (S : SystemState) (x : String),
      x ∈ ms → x ≠ cid → (lookupClient S x).isSome →
      (x, m) ∈ (ms.foldl (fun s mid => if mid = cid then s else sendToClient s mid m)
        S).outbox
  | [], _, _, hx, _, _ => by simp at hx
  | c :: cs, S, x, hx, hne, hlive => by
    rw [List.foldl_cons]
    by_cases hxc : x = c
    · subst hxc
      rw [if_neg hne]
      apply folddc_outbox_mem
      unfold sendToClient
      cases hl : lookupClient S x
      · rw [hl] at hlive; simp at hlive
      · simp
    · have hx' : x ∈ cs := by
        rcases List.mem_cons.mp hx with h | h
        · exact absurd h hxc
        · exact h
      refine folddc_outbox_new cid m cs _ x hx' hne ?_
      split <;> simp [hlive]

theorem folddc_outbox_all (cid : String) (m : Msg) :
    ∀ (ms : List String) (S : SystemState) (e : String × Msg),
      e ∈ (ms.foldl (fun s mid => if mid = cid then s else sendToClient s mid m)
        S).outbox → e ∈ S.outbox ∨ e.2 = m
  | [], _, _, he => Or.inl he
  | c :: cs, S, e, he => by
    rw [List.foldl_cons] at he
    rcases folddc_outbox_all cid m cs _ e he with h | h
    · by_cases hc : c = cid
      · rw [if_pos hc] at h
        exact Or.inl h
      · rw [if_neg hc] at h
        unfold sendToClient at h
        cases hl : lookupClient S c
        · rw [hl] at h; exact Or.inl h
        · rw [hl] at h
          simp only [List.mem_append] at h
          rcases h with h | h
          · exact Or.inl h
          · simp only [List.mem_singleton] at h
            exact Or.inr (by rw [h])
    · exact Or.inr h

/-- C7 as amended: the transport-close handler for a connection that was in
a room notifies the remaining live subscribers with `player_left`, emits
nothing else (in particular no `host_changed`), clears the bound player's
room binding while leaving every other player field — including `isHost` —
unchanged, leaves the room records (including `playersCount`) untouched,
unsubscribes the connection, and removes it from the registry.  It performs
no host promotion and no player-count decrement. -/
theorem claim_C7_amended (S : SystemState) (cid : String) (c : WSClient)
    (rc : String) (hc : lookupClient S cid = some c) (hrc : c.roomCode = some rc) :
    (∀ x ∈ getRoomClients S rc, x ≠ cid → (lookupClient S x).isSome →
      (x, Msg.playerLeft c.playerId) ∈ (step S (.disconnect cid)).outbox)
    ∧ (∀ e ∈ (step S (.disconnect cid)).outbox,
        e ∈ S.outbox ∨ e.2 = Msg.playerLeft c.playerId)
    ∧ (∀ pid p, c.playerId = some pid → getPlayer S pid = some p →
        (step S (.disconnect cid)).players = S.players.map
          (fun q => if q.id = pid then { q with roomCode := none } else q))
    ∧ (step S (.disconnect cid)).rooms = S.rooms
    ∧ cid ∉ getRoomClients (step S (.disconnect cid)) rc
    ∧ (step S (.disconnect cid)).clients = S.clients.filter (fun cl => cl.id ≠ cid) := by
  obtain ⟨cid0, cpid, crc0, cun0⟩ := c
  simp only at hrc
  subst hrc
  cases cpid with
  | none =>
    simp only [step, handleDisconnect, hc]
    refine ⟨?_, ?_, ?_, ?_, ?_, ?_⟩
    · intro x hx hne hlive
      exact folddc_outbox_new cid _ _ S x hx hne hlive
    · intro e he
      exact folddc_outbox_all cid _ _ S e he
    · intro pid p hpid
      simp at hpid
    · simp [folddc_rooms]
    · show cid ∉ getRoomClients (removeFromRoom _ cid rc) rc
      exact getRoomClients_removeFromRoom_self _ cid rc
    · simp only [removeFromRoom_clients, folddc_clients]
  | some pid =>
    simp only [step, handleDisconnect, hc]
    split
    · next hgp =>
      refine ⟨?_, ?_, ?_, ?_, ?_, ?_⟩
      · intro x hx hne hlive
        exact folddc_outbox_new cid _ _ S x hx hne hlive
      · intro e he
        exact folddc_outbox_all cid _ _ S e he
      · intro pid2 p hpid2 hp
        simp only [Option.some.injEq] at hpid2
        cases hpid2
        unfold getPlayer at hgp
        rw [removeFromRoom_players, folddc_players] at hgp
        unfold getPlayer at hp
        rw [hp] at hgp
        cases hgp
      · simp [folddc_rooms]
      · show cid ∉ getRoomClients (removeFromRoom _ cid rc) rc
        exact getRoomClients_removeFromRoom_self _ cid rc
      · simp only [removeFromRoom_clients, folddc_clients]
    · next p0 hgp =>
      refine ⟨?_, ?_, ?_, ?_, ?_, ?_⟩
      · intro x hx hne hlive
        simp only [updatePlayerF_outbox, removeFromRoom_outbox]
        exact folddc_outbox_new cid _ _ S x hx hne hlive
      · intro e he
        simp only [updatePlayerF_outbox, removeFromRoom_outbox] at he
        exact folddc_outbox_all cid _ _ S e he
      · intro pid2 p hpid2 hp
        simp only [Option.some.injEq] at hpid2
        cases hpid2
        simp only [updatePlayerF_players, removeFromRoom_players, folddc_players]
      · simp [folddc_rooms]
      · exact getRoomClients_removeFromRoom_self ((getRoomClients S rc).foldl
          (fun s mid => if mid = cid then s else sendToClient s mid
            (Msg.playerLeft (some pid))) S) cid rc
      · simp only [updatePlayerF_clients, removeFromRoom_clients, folddc_clients]

/-- C7 counterexample: when the host (alice) disconnects from a two-player
room, the remaining player (bob) is not promoted, no `host_changed`
envelope is ever emitted, and the room playersCount stays 2 — contrary to
the claim that disconnect performs host promotion exactly as leave-room
does. -/
theorem claim_C7_counterexample :
    ((run initState hostDisconnectTrace).players.map
      (fun p => (p.id, p.isHost, p.roomCode)) =
      [(1, true, none), (2, false, some "ABCDEF")]) ∧
    ((run initState hostDisconnectTrace).outbox.all
      (fun e => !e.2.isHostChanged) = true) ∧
    ((getRoomByCode (run initState hostDisconnectTrace) "ABCDEF").map
      (·.playersCount) = some 2) := by
  refine ⟨by decide, by decide, by decide⟩

/-- C7 witness: on the concrete two-player room, the host disconnect
leaves the room records untouched. -/
theorem claim_C7_witness :
    (lookupClient (run initState joinedTrace) "c1" =
      some ⟨"c1", some 1, some "ABCDEF", some "alice"⟩) ∧
    (step (run initState joinedTrace) (.disconnect "c1")).rooms =
      (run initState joinedTrace).rooms :=
  ⟨by decide,
    (claim_C7_amended (run initState joinedTrace) "c1"
      ⟨"c1", some 1, some "ABCDEF", some "alice"⟩ "ABCDEF"
      (by decide) rfl).2.2.2.1⟩

@[simp] theorem getRoomClients_sendToClient (S : SystemState) (cid x : String)
    (m : Msg) : getRoomClients (sendToClient S cid m) x = getRoomClients S x := by
  unfold getRoomClients; rw [sendToClient_subs]

@[simp] theorem getRoomClients_updateClient (S : SystemState) (cid x : String)
    (f : WSClient → WSClient) :
    getRoomClients (updateClient S cid f) x = getRoomClients S x := rfl

@[simp] theorem lookupClient_addToRoom (S : SystemState) (cid rc x : String) :
    lookupClient (addToRoom S cid rc) x = lookupClient S x := by
  unfold lookupClient; rw [addToRoom_clients]

@[simp] theorem lookupClient_updatePlayerF (S : SystemState) (pid : Nat)
    (f : Player → Player) (x : String) :
    lookupClient (updatePlayerF S pid f) x = lookupClient S x := rfl

theorem sendToClient_outbox_self (S : SystemState) (cid : String) (m : Msg)
    (h : (lookupClient S cid).isSome) : (cid, m) ∈ (sendToClient S cid m).outbox := by
  unfold sendToClient
  cases hl : lookupClient S cid
  · rw [hl] at h; simp at h
  · simp

/-- C8 as amended: a `join_room` from a bound player is rejected with a
unicast error and no state change exactly when the code is not 6
characters, the room is absent, the room is full, or the room status is
`playing` (not: "not waiting" — an `ended` room passes the check); in
every other case the player record is attached to the room, `playersCount`
is incremented, the connection is subscribed, `player_joined` reaches the
pre-existing live subscribers and `room_joined` is unicast to the
joiner. -/
theorem claim_C8_amended (S : SystemState) (cid : String) (c : WSClient)
    (pid : Nat) (hc : lookupClient S cid = some c) (hpid : c.playerId = some pid)
    (code : String) :
    (code.length ≠ 6 →
      step S (.joinRoom cid code) =
        { S with outbox := S.outbox ++ [(cid, Msg.errorMsg "Could not join room")] })
    ∧ (code.length = 6 → getRoomByCode S code = none →
      step S (.joinRoom cid code) =
        { S with outbox := S.outbox ++ [(cid, Msg.errorMsg "Room not found")] })
    ∧ (∀ room, code.length = 6 → getRoomByCode S code = some room →
        room.playersCount ≥ room.maxPlayers →
      step S (.joinRoom cid code) =
        { S with outbox := S.outbox ++ [(cid, Msg.errorMsg "Room is full")] })
    ∧ (∀ room, code.length = 6 → getRoomByCode S code = some room →
        room.playersCount < room.maxPlayers → room.status = "playing" →
      step S (.joinRoom cid code) =
        { S with outbox := S.outbox ++
          [(cid, Msg.errorMsg "Game already in progress")] })
    ∧ (∀ room p, code.length = 6 → getRoomByCode S code = some room →
        room.playersCount < room.maxPlayers → room.status ≠ "playing" →
        getPlayer S pid = some p →
        ((step S (.joinRoom cid code)).players = S.players.map
          (fun q => if q.id = pid then
            { q with roomCode := some code, ready := false } else q))
        ∧ ((step S (.joinRoom cid code)).rooms = S.rooms.map
          (fun r => if r.id = room.id then
            { r with playersCount := room.playersCount + 1 } else r))
        ∧ cid ∈ getRoomClients (step S (.joinRoom cid code)) code
        ∧ (cid, Msg.roomJoined code) ∈ (step S (.joinRoom cid code)).outbox
        ∧ (∀ x ∈ getRoomClients S code, (lookupClient S x).isSome →
            (x, Msg.playerJoined pid) ∈ (step S (.joinRoom cid code)).outbox)) := by
  refine ⟨?_, ?_, ?_, ?_, ?_⟩
  · intro hlen
    simp only [step, handleJoinRoom, hc, hpid, if_pos hlen]
    simp only [sendToClient, hc]
  · intro hlen hnone
    simp only [step, handleJoinRoom, hc, hpid, if_neg (not_not_intro hlen), hnone]
    simp only [sendToClient, hc]
  · intro room hlen hroom hfull
    simp only [step, handleJoinRoom, hc, hpid, if_neg (not_not_intro hlen), hroom]
    rw [if_pos hfull]
    simp only [sendToClient, hc]
  · intro room hlen hroom hnotfull hplaying
    simp only [step, handleJoinRoom, hc, hpid, if_neg (not_not_intro hlen), hroom]
    rw [if_neg (Nat.not_le.mpr hnotfull), if_pos hplaying]
    simp only [sendToClient, hc]
  · intro room p hlen hroom hnotfull hnotplaying hp
    simp only [step, handleJoinRoom, hc, hpid, if_neg (not_not_intro hlen), hroom, hp]
    rw [if_neg (Nat.not_le.mpr hnotfull), if_neg hnotplaying]
    refine ⟨?_, ?_, ?_, ?_, ?_⟩
    · simp
    · simp
    · simp only [getRoomClients_sendToClient, getRoomClients_broadcast]
      exact addToRoom_mem_self _ cid code
    · apply sendToClient_outbox_self
      rw [lookupClient_broadcast, lookupClient_addToRoom,
        lookupClient_updateClient _ cid
          (fun cl => { cl with roomCode := some code }) (fun _ => rfl) cid]
      simp only [lookupClient_updateRoomF, lookupClient_updatePlayerF]
      rw [hc]
      simp
    · intro x hx hlive
      apply sendToClient_outbox_mem
      apply broadcast_outbox_new
      · exact addToRoom_mem_old _ cid code x hx
      · rw [lookupClient_addToRoom,
          lookupClient_updateClient _ cid
            (fun cl => { cl with roomCode := some code }) (fun _ => rfl) x]
        simp only [lookupClient_updateRoomF, lookupClient_updatePlayerF]
        cases hlx : lookupClient S x
        · rw [hlx] at hlive; simp at hlive
        · simp

/-- C8 counterexample: the room of `endedTrace` has status "ended" (not
"waiting"), yet a third registered player joins it successfully: the
player is attached, the count rises to 3, and no rejection occurs —
refuting the claim that any status other than `waiting` is rejected. -/
theorem claim_C8_counterexample :
    ((getRoomByCode (run initState endedTrace) "ABCDEF").map
      (fun r => (r.status, r.playersCount)) = some ("ended", 2)) ∧
    (((run initState (endedTrace ++ [.connect "c3", .register "c3" "carol",
        .joinRoom "c3" "ABCDEF"])).players.filter (fun p => p.id == 3)).map
      (fun p => p.roomCode) = [some "ABCDEF"]) ∧
    ((getRoomByCode (run initState (endedTrace ++ [.connect "c3",
        .register "c3" "carol", .joinRoom "c3" "ABCDEF"])) "ABCDEF").map
      (fun r => (r.status, r.playersCount)) = some ("ended", 3)) ∧
    ("ended" : String) ≠ "waiting" := by
  refine ⟨by decide, by decide, by decide, by decide⟩

/-- C8 witness: bob joins the freshly created waiting room and receives
the `room_joined` envelope. -/
theorem claim_C8_witness :
    ("ABCDEF".length = 6) ∧
    ("c2", Msg.roomJoined "ABCDEF") ∈
      (step (run initState lobbyTrace) (.joinRoom "c2" "ABCDEF")).outbox :=
  ⟨rfl,
    ((claim_C8_amended (run initState lobbyTrace) "c2"
      ⟨"c2", some 2, none, some "bob"⟩ 2 (by decide) rfl "ABCDEF").2.2.2.2
      { id := 1, code := "ABCDEF", status := "waiting", playersCount := 1
        maxPlayers := 6, minPlayers := 2, gameState := emptyGameState }
      { id := 2, name := "bob", sessionId := "c2", roomCode := none
        ready := false, isHost := false, points := 0 }
      rfl (by decide) (by decide) (by decide) (by decide)).2.2.2.1⟩

/-- C5 counterexample: `handleStartGame` never checks the room status, so
a second `start_game` on a room already `playing` (all ready flags are
still set) passes every guard and deals a fresh GameState: the stored
solution changes from the first deal to the second. -/
theorem claim_C5_counterexample :
    ((getRoomByCode (run initState twoPlayerTrace) "ABCDEF").map
      (fun r => (r.status, r.gameState.solution)) =
      some ("playing", some ⟨"colonel_mustard", "knife", "study"⟩)) ∧
    ((getRoomByCode (run initState (twoPlayerTrace ++
        [.startGame "c1" ⟨1, 1, 1, []⟩])) "ABCDEF").map
      (fun r => (r.status, r.gameState.solution)) =
      some ("playing", some ⟨"professor_plum", "candlestick", "hall"⟩)) ∧
    (some (⟨"professor_plum", "candlestick", "hall"⟩ : Solution) ≠
      some (⟨"colonel_mustard", "knife", "study"⟩ : Solution)) := by
  refine ⟨by decide, by decide, by decide⟩

theorem statusPres_map {rs : List Room} {g : Room → Room}
    (hg : ∀ r, (g r).id = r.id ∧ (g r).code = r.code ∧ (g r).status = r.status) :
    ∀ r2 ∈ rs.map g, ∃ r1 ∈ rs, r1.id = r2.id ∧ r1.code = r2.code ∧
      r2.status = r1.status := by
  intro r2 h
  obtain ⟨r1, hr1, rfl⟩ := List.mem_map.mp h
  exact ⟨r1, hr1, (hg r1).1.symm, (hg r1).2.1.symm, (hg r1).2.2⟩

theorem statusTo_map {rs : List Room} {g : Room → Room} {st : String}
    (hg : ∀ r, (g r).id = r.id ∧ (g r).code = r.code ∧
      ((g r).status = r.status ∨ (g r).status = st)) :
    ∀ r2 ∈ rs.map g, ∃ r1 ∈ rs, r1.id = r2.id ∧ r1.code = r2.code ∧
      (r2.status = r1.status ∨ r2.status = st) := by
  intro r2 h
  obtain ⟨r1, hr1, rfl⟩ := List.mem_map.mp h
  exact ⟨r1, hr1, (hg r1).1.symm, (hg r1).2.1.symm, (hg r1).2.2⟩

theorem foldpc_rooms (gs : GameStateJS) :
    ∀ (ps : List Player) (S : SystemState),
      (ps.foldl (fun s p =>
        match s.clients.find? (fun cl => cl.playerId == some p.id) with
        | some pcl =>
          sendToClient s pcl.id
            (.playerCardsMsg (((gs.playerCards.lookup p.id).getD []).map
              fun v => (cardTypeOf gs.gameCards v, v)))
        | none => s) S).rooms = S.rooms
  | [], _ => rfl
  | p :: ps, S => by
    rw [List.foldl_cons, foldpc_rooms gs ps]
    split <;> simp

/-- C5 as amended: across every event, a room record after the step has
the same id and code as a pre-existing room with the same status, except
that `start_game` may set status "playing" (without checking the prior
status — so a playing or ended room can be restarted and re-dealt) and
`make_final_accusation` may set status "ended"; `create_room` inserts a
new room with status "waiting".  No other handler changes any status. -/
theorem claim_C5_amended (S : SystemState) (e : Event) :
    ∀ r2 ∈ (step S e).rooms,
      (∃ r1 ∈ S.rooms, r1.id = r2.id ∧ r1.code = r2.code ∧
        (r2.status = r1.status
         ∨ ((∃ cid rand, e = .startGame cid rand) ∧ r2.status = "playing")
         ∨ ((∃ cid s2 w2 rm2, e = .makeFinalAccusation cid s2 w2 rm2) ∧
             r2.status = "ended")))
      ∨ ((∃ cid code2, e = .createRoom cid code2) ∧ r2.status = "waiting") := by
  cases e with
  | connect cid =>
    simp only [step, handleConnect]
    repeat' split
    all_goals try simp only [sendToClient_rooms]
    all_goals exact fun r2 hr2 => Or.inl ⟨r2, hr2, rfl, rfl, Or.inl rfl⟩
  | register cid name =>
    simp only [step, handleRegisterPlayer]
    repeat' split
    all_goals try simp only [sendToClient_rooms, updateClient_rooms]
    all_goals exact fun r2 hr2 => Or.inl ⟨r2, hr2, rfl, rfl, Or.inl rfl⟩
  | createRoom cid code2 =>
    simp only [step, handleCreateRoom]
    repeat' split
    all_goals try simp only [sendToClient_rooms, addToRoom_rooms,
      updateClient_rooms, updateRoomF_rooms, updatePlayerF_rooms]
    all_goals try exact fun r2 hr2 => Or.inl ⟨r2, hr2, rfl, rfl, Or.inl rfl⟩
    all_goals
      first
      | (intro r2 hr2
         rcases List.mem_append.mp hr2 with h | h
         · exact Or.inl ⟨r2, h, rfl, rfl, Or.inl rfl⟩
         · simp only [List.mem_singleton] at h
           subst h
           exact Or.inr ⟨⟨cid, code2, rfl⟩, rfl⟩)
      | (intro r2 hr2
         obtain ⟨r1, h1, hid, hcode, hst⟩ := statusPres_map
           (fun r => ⟨by split <;> rfl, by split <;> rfl,
             by split <;> rfl⟩) r2 hr2
         rcases List.mem_append.mp h1 with h | h
         · exact Or.inl ⟨r1, h, hid, hcode, Or.inl hst⟩
         · simp only [List.mem_singleton] at h
           subst h
           exact Or.inr ⟨⟨cid, code2, rfl⟩, by rw [hst]⟩)
  | joinRoom cid code2 =>
    simp only [step, handleJoinRoom]
    repeat' split
    all_goals try simp only [sendToClient_rooms, addToRoom_rooms,
      updateClient_rooms, updateRoomF_rooms, updatePlayerF_rooms, broadcast_rooms]
    all_goals try exact fun r2 hr2 => Or.inl ⟨r2, hr2, rfl, rfl, Or.inl rfl⟩
    all_goals
      (intro r2 hr2
       obtain ⟨r1, h1, hid, hcode, hst⟩ := statusPres_map
         (fun r => ⟨by split <;> rfl, by split <;> rfl,
           by split <;> rfl⟩) r2 hr2
       exact Or.inl ⟨r1, h1, hid, hcode, Or.inl hst⟩)
  | leaveRoom cid =>
    simp only [step, handleLeaveRoom]
    repeat' split
    all_goals try simp only [sendToClient_rooms, removeFromRoom_rooms,
      updateClient_rooms, broadcast_rooms, updatePlayerF_rooms, updateRoomF_rooms]
    all_goals try exact fun r2 hr2 => Or.inl ⟨r2, hr2, rfl, rfl, Or.inl rfl⟩
    all_goals
      (intro r2 hr2
       obtain ⟨r1, h1, hid, hcode, hst⟩ := statusPres_map
         (fun r => ⟨by split <;> rfl, by split <;> rfl,
           by split <;> rfl⟩) r2 hr2
       exact Or.inl ⟨r1, h1, hid, hcode, Or.inl hst⟩)
  | toggleReady cid =>
    simp only [step, handleToggleReady]
    repeat' split
    all_goals try simp only [sendToClient_rooms, broadcast_rooms,
      updatePlayerF_rooms]
    all_goals exact fun r2 hr2 => Or.inl ⟨r2, hr2, rfl, rfl, Or.inl rfl⟩
  | startGame cid rand =>
    simp only [step, handleStartGame, updateRoomGameState]
    repeat' split
    all_goals try simp only [sendToClient_rooms, broadcast_rooms,
      foldpc_rooms, updateRoomF_rooms, updatePlayerF_rooms]
    all_goals try exact fun r2 hr2 => Or.inl ⟨r2, hr2, rfl, rfl, Or.inl rfl⟩
    all_goals
      first
      | (intro r2 hr2
         obtain ⟨r1, h1, hid, hcode, hst⟩ := @statusTo_map _ _ "playing"
           (fun r => ⟨by split <;> rfl, by split <;> rfl,
             by split <;> simp⟩) r2 hr2
         refine Or.inl ⟨r1, h1, hid, hcode, ?_⟩
         rcases hst with h | h
         · exact Or.inl h
         · exact Or.inr (Or.inl ⟨⟨cid, rand, rfl⟩, h⟩))
      | (intro r2 hr2
         obtain ⟨r1m, h1m, hidm, hcodem, hstm⟩ := statusPres_map
           (fun r => ⟨by split <;> rfl, by split <;> rfl,
             by split <;> rfl⟩) r2 hr2
         obtain ⟨r1, h1, hid, hcode, hst⟩ := @statusTo_map _ _ "playing"
           (fun r => ⟨by split <;> rfl, by split <;> rfl,
             by split <;> simp⟩) r1m h1m
         refine Or.inl ⟨r1, h1, hid.trans hidm, hcode.trans hcodem, ?_⟩
         rcases hst with h | h
         · exact Or.inl (hstm.trans h)
         · exact Or.inr (Or.inl ⟨⟨cid, rand, rfl⟩, hstm.trans h⟩))
  | makeAccusation cid s2 w2 rm2 =>
    simp only [step, handleMakeAccusation]
    repeat' split
    all_goals try simp only [sendToClient_rooms, broadcast_rooms]
    all_goals exact fun r2 hr2 => Or.inl ⟨r2, hr2, rfl, rfl, Or.inl rfl⟩
  | makeFinalAccusation cid s2 w2 rm2 =>
    simp only [step, handleMakeFinalAccusation]
    repeat' split
    all_goals try simp only [sendToClient_rooms, broadcast_rooms, updateRoomF_rooms]
    all_goals try exact fun r2 hr2 => Or.inl ⟨r2, hr2, rfl, rfl, Or.inl rfl⟩
    all_goals
      (intro r2 hr2
       obtain ⟨r1, h1, hid, hcode, hst⟩ := @statusTo_map _ _ "ended"
         (fun r => ⟨by split <;> rfl, by split <;> rfl,
           by split <;> simp⟩) r2 hr2
       refine Or.inl ⟨r1, h1, hid, hcode, ?_⟩
       rcases hst with h | h
       · exact Or.inl h
       · exact Or.inr (Or.inr ⟨⟨cid, s2, w2, rm2, rfl⟩, h⟩))
  | endTurn cid =>
    simp only [step, handleEndTurn, updateRoomGameState]
    repeat' split
    all_goals try simp only [sendToClient_rooms, broadcast_rooms, updateRoomF_rooms]
    all_goals try exact fun r2 hr2 => Or.inl ⟨r2, hr2, rfl, rfl, Or.inl rfl⟩
    all_goals
      (intro r2 hr2
       obtain ⟨r1, h1, hid, hcode, hst⟩ := statusPres_map
         (fun r => ⟨by split <;> rfl, by split <;> rfl,
           by split <;> rfl⟩) r2 hr2
       exact Or.inl ⟨r1, h1, hid, hcode, Or.inl hst⟩)
  | getSolution cid =>
    simp only [step, sendToClient_rooms]
    exact fun r2 hr2 => Or.inl ⟨r2, hr2, rfl, rfl, Or.inl rfl⟩
  | disconnect cid =>
    simp only [step, handleDisconnect]
    repeat' split
    all_goals try simp only [folddc_rooms, removeFromRoom_rooms, updatePlayerF_rooms]
    all_goals exact fun r2 hr2 => Or.inl ⟨r2, hr2, rfl, rfl, Or.inl rfl⟩

/-- Witness for the amended C5 theorem: the lobby room (id 1, code ABCDEF,
status waiting) survives a fresh `connect` event with id, code and status
intact. -/
theorem claim_C5_amended_witness :
    ({ id := 1, code := "ABCDEF", status := "waiting", playersCount := 1,
       maxPlayers := 6, minPlayers := 2, gameState := emptyGameState } : Room)
      ∈ (step (run initState lobbyTrace) (.connect "z")).rooms ∧
    ((∃ r1 ∈ (run initState lobbyTrace).rooms, r1.id = 1 ∧ r1.code = "ABCDEF" ∧
        (("waiting" : String) = r1.status
         ∨ ((∃ cid rand, Event.connect "z" = .startGame cid rand) ∧
             ("waiting" : String) = "playing")
         ∨ ((∃ cid s2 w2 rm2,
              Event.connect "z" = .makeFinalAccusation cid s2 w2 rm2) ∧
             ("waiting" : String) = "ended")))
      ∨ ((∃ cid code2, Event.connect "z" = .createRoom cid code2) ∧
          ("waiting" : String) = "waiting")) :=
  ⟨by decide,
   claim_C5_amended (run initState lobbyTrace) (.connect "z")
     { id := 1, code := "ABCDEF", status := "waiting", playersCount := 1,
       maxPlayers := 6, minPlayers := 2, gameState := emptyGameState }
     (by decide)⟩

/-! ## Counter projections and generic list update lemmas (for C6) -/

theorem foldl_send_pidc (m : Msg) :
    ∀ (cs : List String) (S : SystemState),
      (cs.foldl (fun s cid => sendToClient s cid m) S).playerIdCounter
        = S.playerIdCounter
  | [], _ => rfl
  | c :: cs, S => by
    rw [List.foldl_cons, foldl_send_pidc m cs, sendToClient_pidc]

theorem foldl_send_ridc (m : Msg) :
    ∀ (cs : List String) (S : SystemState),
      (cs.foldl (fun s cid => sendToClient s cid m) S).roomIdCounter
        = S.roomIdCounter
  | [], _ => rfl
  | c :: cs, S => by
    rw [List.foldl_cons, foldl_send_ridc m cs, sendToClient_ridc]

@[simp] theorem broadcast_pidc (S : SystemState) (rc : String) (m : Msg) :
    (broadcastToRoom S rc m).playerIdCounter = S.playerIdCounter :=
  foldl_send_pidc m _ S

@[simp] theorem broadcast_ridc (S : SystemState) (rc : String) (m : Msg) :
    (broadcastToRoom S rc m).roomIdCounter = S.roomIdCounter :=
  foldl_send_ridc m _ S

@[simp] theorem addToRoom_pidc (S : SystemState) (cid rc : String) :
    (addToRoom S cid rc).playerIdCounter = S.playerIdCounter := by
  unfold addToRoom; split <;> rfl

@[simp] theorem addToRoom_ridc (S : SystemState) (cid rc : String) :
    (addToRoom S cid rc).roomIdCounter = S.roomIdCounter := by
  unfold addToRoom; split <;> rfl

@[simp] theorem removeFromRoom_pidc (S : SystemState) (cid rc : String) :
    (removeFromRoom S cid rc).playerIdCounter = S.playerIdCounter := rfl

@[simp] theorem removeFromRoom_ridc (S : SystemState) (cid rc : String) :
    (removeFromRoom S cid rc).roomIdCounter = S.roomIdCounter := rfl

@[simp] theorem updateClient_pidc (S : SystemState) (cid : String)
    (f : WSClient → WSClient) :
    (updateClient S cid f).playerIdCounter = S.playerIdCounter := rfl

@[simp] theorem updateClient_ridc (S : SystemState) (cid : String)
    (f : WSClient → WSClient) :
    (updateClient S cid f).roomIdCounter = S.roomIdCounter := rfl

@[simp] theorem updateClient_clients (S : SystemState) (cid : String)
    (f : WSClient → WSClient) :
    (updateClient S cid f).clients
      = S.clients.map fun c => if c.id = cid then f c else c := rfl

@[simp] theorem updatePlayerF_pidc (S : SystemState) (pid : Nat)
    (f : Player → Player) :
    (updatePlayerF S pid f).playerIdCounter = S.playerIdCounter := rfl

@[simp] theorem updatePlayerF_ridc (S : SystemState) (pid : Nat)
    (f : Player → Player) :
    (updatePlayerF S pid f).roomIdCounter = S.roomIdCounter := rfl

@[simp] theorem updateRoomF_pidc (S : SystemState) (rid : Nat)
    (f : Room → Room) :
    (updateRoomF S rid f).playerIdCounter = S.playerIdCounter := rfl

@[simp] theorem updateRoomF_ridc (S : SystemState) (rid : Nat)
    (f : Room → Room) :
    (updateRoomF S rid f).roomIdCounter = S.roomIdCounter := rfl

theorem foldpc_clients (gs : GameStateJS) :
    ∀ (ps : List Player) (S : SystemState),
      (ps.foldl (fun s p =>
        match s.clients.find? (fun cl => cl.playerId == some p.id) with
        | some pcl =>
          sendToClient s pcl.id
            (.playerCardsMsg (((gs.playerCards.lookup p.id).getD []).map
              fun v => (cardTypeOf gs.gameCards v, v)))
        | none => s) S).clients = S.clients
  | [], _ => rfl
  | p :: ps, S => by
    rw [List.foldl_cons, foldpc_clients gs ps]
    split <;> simp

theorem foldpc_players (gs : GameStateJS) :
    ∀ (ps : List Player) (S : SystemState),
      (ps.foldl (fun s p =>
        match s.clients.find? (fun cl => cl.playerId == some p.id) with
        | some pcl =>
          sendToClient s pcl.id
            (.playerCardsMsg (((gs.playerCards.lookup p.id).getD []).map
              fun v => (cardTypeOf gs.gameCards v, v)))
        | none => s) S).players = S.players
  | [], _ => rfl
  | p :: ps, S => by
    rw [List.foldl_cons, foldpc_players gs ps]
    split <;> simp

theorem foldpc_pidc (gs : GameStateJS) :
    ∀ (ps : List Player) (S : SystemState),
      (ps.foldl (fun s p =>
        match s.clients.find? (fun cl => cl.playerId == some p.id) with
        | some pcl =>
          sendToClient s pcl.id
            (.playerCardsMsg (((gs.playerCards.lookup p.id).getD []).map
              fun v => (cardTypeOf gs.gameCards v, v)))
        | none => s) S).playerIdCounter = S.playerIdCounter
  | [], _ => rfl
  | p :: ps, S => by
    rw [List.foldl_cons, foldpc_pidc gs ps]
    split <;> simp

theorem foldpc_ridc (gs : GameStateJS) :
    ∀ (ps : List Player) (S : SystemState),
      (ps.foldl (fun s p =>
        match s.clients.find? (fun cl => cl.playerId == some p.id) with
        | some pcl =>
          sendToClient s pcl.id
            (.playerCardsMsg (((gs.playerCards.lookup p.id).getD []).map
              fun v => (cardTypeOf gs.gameCards v, v)))
        | none => s) S).roomIdCounter = S.roomIdCounter
  | [], _ => rfl
  | p :: ps, S => by
    rw [List.foldl_cons, foldpc_ridc gs ps]
    split <;> simp

theorem map_if_congr {α β : Type} (l : List α) (c : α → Prop) [DecidablePred c]
    (f : α → α) (g : α → β) (h : ∀ a ∈ l, c a → g (f a) = g a) :
    (l.map (fun a => if c a then f a else a)).map g = l.map g := by
  rw [List.map_map]
  refine List.map_congr_left fun a ha => ?_
  by_cases hc : c a
  · simp only [Function.comp_apply, if_pos hc]
    exact h a ha hc
  · simp only [Function.comp_apply, if_neg hc]

theorem length_filter_map_congr {α : Type} (l : List α) (upd : α → α) (q : α → Bool)
    (h : ∀ a ∈ l, q (upd a) = q a) :
    ((l.map upd).filter q).length = (l.filter q).length := by
  induction l with
  | nil => rfl
  | cons a t ih =>
    have ha := h a (List.mem_cons_self a t)
    have iht := ih fun b hb => h b (List.mem_cons_of_mem a hb)
    rw [List.map_cons, List.filter_cons, List.filter_cons, ha]
    cases hq : q a <;> simp [hq, iht]

theorem filterMap_map_congr {α γ : Type} (l : List α) (upd : α → α)
    (g : α → Option γ) (h : ∀ a ∈ l, g (upd a) = g a) :
    (l.map upd).filterMap g = l.filterMap g := by
  induction l with
  | nil => rfl
  | cons a t ih =>
    have ha := h a (List.mem_cons_self a t)
    have iht := ih fun b hb => h b (List.mem_cons_of_mem a hb)
    rw [List.map_cons, List.filterMap_cons, List.filterMap_cons, ha]
    cases g a <;> simp [iht]

theorem filterMap_map_sublist {α γ : Type} (l : List α) (upd : α → α)
    (g : α → Option γ) (h : ∀ a ∈ l, g (upd a) = g a ∨ g (upd a) = none) :
    ((l.map upd).filterMap g).Sublist (l.filterMap g) := by
  induction l with
  | nil => exact List.Sublist.refl _
  | cons a t ih =>
    have iht := ih fun b hb => h b (List.mem_cons_of_mem a hb)
    rw [List.map_cons, List.filterMap_cons, List.filterMap_cons]
    rcases h a (List.mem_cons_self a t) with hs | hn
    · rw [hs]
      cases g a with
      | none => exact iht
      | some v => exact iht.cons₂ v
    · rw [hn]
      cases g a with
      | none => exact iht
      | some v => exact iht.trans (List.sublist_cons_self v _)

/-- Key counting fact: updating the single list entry carrying key `k`
(keys are distinct) moves the filter count by the difference between the
old and new predicate values at that entry. -/
theorem length_filter_update {α β : Type} [DecidableEq β] (key : α → β) (k : β)
    (f : α → α) (q : α → Bool) :
    ∀ (l : List α), (l.map key).Nodup → ∀ a ∈ l, key a = k →
      ((l.map (fun x => if key x = k then f x else x)).filter q).length
        + (if q a then 1 else 0)
      = (l.filter q).length + (if q (f a) then 1 else 0) := by
  intro l
  induction l with
  | nil => intro _ a ha; cases ha
  | cons b t ih =>
    intro hnd a ha hak
    rw [List.map_cons, List.nodup_cons] at hnd
    by_cases hb : key b = k
    · have hab : a = b := by
        rcases List.mem_cons.mp ha with h | h2
        · exact h
        · have : key b ∈ t.map key := by
            rw [hb, ← hak]; exact List.mem_map_of_mem key h2
          exact absurd this hnd.1
      subst hab
      have ht : t.map (fun x => if key x = k then f x else x) = t := by
        have hpt : ∀ x ∈ t, (if key x = k then f x else x) = x := by
          intro x hx
          rw [if_neg]
          intro hxx
          exact hnd.1 (by rw [hak, ← hxx]; exact List.mem_map_of_mem key hx)
        rw [List.map_congr_left hpt]
        simp
      rw [List.map_cons, if_pos hak, ht, List.filter_cons, List.filter_cons]
      cases hqa : q a <;> cases hqf : q (f a) <;> simp [hqa, hqf] <;> omega
    · have ha2 : a ∈ t := by
        rcases List.mem_cons.mp ha with h | h2
        · rw [h] at hak; exact absurd hak hb
        · exact h2
      have hthis := ih hnd.2 a ha2 hak
      rw [List.map_cons, if_neg hb, List.filter_cons, List.filter_cons]
      cases hqa : q a <;> cases hqf : q (f a) <;>
        rw [hqa, hqf] at hthis <;> simp at hthis <;>
        cases hqb : q b <;> simp [hqb] <;> omega

/-- Binding a fresh player id on the unique client with connection id
`cid` (previously unbound) inserts exactly that id into the list of bound
player ids. -/
theorem filterMap_register_perm (cid : String) (pid : Nat) (nm : String) :
    ∀ (l : List WSClient), (l.map (·.id)).Nodup →
      ∀ a ∈ l, a.id = cid → a.playerId = none →
      ((l.map (fun c => if c.id = cid then
          { c with playerId := some pid, username := some nm } else c)).filterMap
            (·.playerId)).Perm
        (pid :: l.filterMap (·.playerId)) := by
  intro l
  induction l with
  | nil => intro _ a ha; cases ha
  | cons b t ih =>
    intro hnd a ha haid hap
    rw [List.map_cons, List.nodup_cons] at hnd
    by_cases hb : b.id = cid
    · have hab : a = b := by
        rcases List.mem_cons.mp ha with h | h2
        · exact h
        · have : b.id ∈ t.map (·.id) := by
            rw [hb, ← haid]; exact List.mem_map_of_mem _ h2
          exact absurd this hnd.1
      subst hab
      have ht : t.map (fun c => if c.id = cid then
          { c with playerId := some pid, username := some nm } else c) = t := by
        have hpt : ∀ x ∈ t, (if x.id = cid then
            ({ x with playerId := some pid, username := some nm } : WSClient)
            else x) = x := by
          intro x hx
          rw [if_neg]
          intro hxx
          exact hnd.1 (by rw [haid, ← hxx]; exact List.mem_map_of_mem _ hx)
        rw [List.map_congr_left hpt]
        simp
      rw [List.map_cons, if_pos haid, ht, List.filterMap_cons, List.filterMap_cons,
        hap]
    · have ha2 : a ∈ t := by
        rcases List.mem_cons.mp ha with h | h2
        · rw [h] at haid; exact absurd haid hb
        · exact h2
      have hrec := ih hnd.2 a ha2 haid hap
      rw [List.map_cons, if_neg hb, List.filterMap_cons, List.filterMap_cons]
      cases hbp : b.playerId with
      | none => exact hrec
      | some q =>
        exact (hrec.cons q).trans (List.Perm.swap pid q _)

/-! ## WF preservation through the state operations -/

theorem WF_sendToClient (S : SystemState) (cid : String) (m : Msg) :
    WF (sendToClient S cid m) ↔ WF S := by
  simp only [WF, sendToClient_clients, sendToClient_players, sendToClient_rooms,
    sendToClient_pidc, sendToClient_ridc]

theorem WF_broadcast (S : SystemState) (rc : String) (m : Msg) :
    WF (broadcastToRoom S rc m) ↔ WF S := by
  simp only [WF, broadcast_clients, broadcast_players, broadcast_rooms,
    broadcast_pidc, broadcast_ridc]

theorem WF_addToRoom (S : SystemState) (cid rc : String) :
    WF (addToRoom S cid rc) ↔ WF S := by
  simp only [WF, addToRoom_clients, addToRoom_players, addToRoom_rooms,
    addToRoom_pidc, addToRoom_ridc]

theorem WF_removeFromRoom (S : SystemState) (cid rc : String) :
    WF (removeFromRoom S cid rc) ↔ WF S := by
  simp only [WF, removeFromRoom_clients, removeFromRoom_players,
    removeFromRoom_rooms, removeFromRoom_pidc, removeFromRoom_ridc]

/-- A player update that keeps ids and room bindings (ready or host flag
flips) preserves every well-formedness clause. -/
theorem WF_updatePlayerF (S : SystemState) (pid : Nat) (f : Player → Player)
    (hid : ∀ p, (f p).id = p.id) (hrc : ∀ p, (f p).roomCode = p.roomCode)
    (h : WF S) : WF (updatePlayerF S pid f) := by
  simp only [WF] at h ⊢
  obtain ⟨h1, h2, h3, h4, h5, h6, h7, h8, h9, h10⟩ := h
  simp only [updatePlayerF_players, updatePlayerF_clients, updatePlayerF_rooms,
    updatePlayerF_pidc, updatePlayerF_ridc]
  have hui : ∀ p : Player, ((if p.id = pid then f p else p) : Player).id = p.id := by
    intro p; split
    · exact hid p
    · rfl
  have hur : ∀ p : Player,
      ((if p.id = pid then f p else p) : Player).roomCode = p.roomCode := by
    intro p; split
    · exact hrc p
    · rfl
  refine ⟨h1, ?_, h3, h4, ?_, h6, ?_, ?_, h9, ?_⟩
  · rw [map_if_congr S.players (fun p => p.id = pid) f (·.id)
      (fun a _ _ => hid a)]
    exact h2
  · intro p hp
    obtain ⟨p0, hp0, rfl⟩ := List.mem_map.mp hp
    rw [hui p0]
    exact h5 p0 hp0
  · intro p hp
    obtain ⟨p0, hp0, rfl⟩ := List.mem_map.mp hp
    rw [hur p0]
    exact h7 p0 hp0
  · intro cl hcl
    rcases h8 cl hcl with hu | ⟨p0, hp0, hbind, hprc⟩
    · exact Or.inl hu
    · refine Or.inr ⟨if p0.id = pid then f p0 else p0, List.mem_map_of_mem _ hp0,
        ?_, ?_⟩
      · rw [hui p0]; exact hbind
      · rw [hur p0]; exact hprc
  · intro r hr
    rw [length_filter_map_congr S.players _ (fun p => p.roomCode == some r.code)
      (fun a _ => by simp only [hur a])]
    exact h10 r hr

/-- A room update that keeps ids, codes and player counts (status or game
state changes) preserves every well-formedness clause. -/
theorem WF_updateRoomF (S : SystemState) (rid : Nat) (f : Room → Room)
    (hid : ∀ r, (f r).id = r.id) (hcode : ∀ r, (f r).code = r.code)
    (hcount : ∀ r, (f r).playersCount = r.playersCount)
    (h : WF S) : WF (updateRoomF S rid f) := by
  simp only [WF] at h ⊢
  obtain ⟨h1, h2, h3, h4, h5, h6, h7, h8, h9, h10⟩ := h
  simp only [updateRoomF_players, updateRoomF_clients, updateRoomF_rooms,
    updateRoomF_pidc, updateRoomF_ridc]
  have hui : ∀ r : Room, ((if r.id = rid then f r else r) : Room).id = r.id := by
    intro r; split
    · exact hid r
    · rfl
  have huc : ∀ r : Room, ((if r.id = rid then f r else r) : Room).code = r.code := by
    intro r; split
    · exact hcode r
    · rfl
  have hun : ∀ r : Room,
      ((if r.id = rid then f r else r) : Room).playersCount = r.playersCount := by
    intro r; split
    · exact hcount r
    · rfl
  refine ⟨h1, h2, ?_, ?_, h5, ?_, ?_, h8, h9, ?_⟩
  · rw [map_if_congr S.rooms (fun r => r.id = rid) f (·.id)
      (fun a _ _ => hid a)]
    exact h3
  · rw [map_if_congr S.rooms (fun r => r.id = rid) f (·.code)
      (fun a _ _ => hcode a)]
    exact h4
  · intro r hr
    obtain ⟨r0, hr0, rfl⟩ := List.mem_map.mp hr
    rw [hui r0]
    exact h6 r0 hr0
  · intro p hp
    rcases h7 p hp with hn | ⟨r0, hr0, hc⟩
    · exact Or.inl hn
    · refine Or.inr ⟨if r0.id = rid then f r0 else r0,
        List.mem_map_of_mem _ hr0, ?_⟩
      rw [huc r0]; exact hc
  · intro r hr
    obtain ⟨r0, hr0, rfl⟩ := List.mem_map.mp hr
    rw [hun r0, huc r0]
    exact h10 r0 hr0

theorem WF_foldpc (gs : GameStateJS) (ps : List Player) (S : SystemState) :
    WF (ps.foldl (fun s p =>
      match s.clients.find? (fun cl => cl.playerId == some p.id) with
      | some pcl =>
        sendToClient s pcl.id
          (.playerCardsMsg (((gs.playerCards.lookup p.id).getD []).map
            fun v => (cardTypeOf gs.gameCards v, v)))
      | none => s) S) ↔ WF S := by
  simp only [WF, foldpc_clients, foldpc_players, foldpc_rooms, foldpc_pidc,
    foldpc_ridc]

theorem lookupClient_mem_eq {S : SystemState} {cid : String} {c : WSClient}
    (h : lookupClient S cid = some c) : c ∈ S.clients ∧ c.id = cid := by
  refine ⟨List.mem_of_find?_eq_some h, ?_⟩
  have := List.find?_some h
  simpa using this

theorem getPlayer_mem_eq {S : SystemState} {pid : Nat} {p : Player}
    (h : getPlayer S pid = some p) : p ∈ S.players ∧ p.id = pid := by
  refine ⟨List.mem_of_find?_eq_some h, ?_⟩
  have := List.find?_some h
  simpa using this

theorem getRoomByCode_mem_eq {S : SystemState} {code : String} {r : Room}
    (h : getRoomByCode S code = some r) : r ∈ S.rooms ∧ r.code = code := by
  refine ⟨List.mem_of_find?_eq_some h, ?_⟩
  have := List.find?_some h
  simpa using this

theorem getRoomByCode_none {S : SystemState} {code : String}
    (h : getRoomByCode S code = none) : ∀ r ∈ S.rooms, r.code ≠ code := by
  intro r hr
  have := List.find?_eq_none.mp h r hr
  simpa using this

/-- Two clients of a well-formed registry bound to the same player id are
the same client. -/
theorem nodup_filterMap_eq :
    ∀ {l : List WSClient}, (l.filterMap (·.playerId)).Nodup →
      ∀ {a b : WSClient}, a ∈ l → b ∈ l → ∀ {v : Nat},
      a.playerId = some v → b.playerId = some v → a = b := by
  intro l
  induction l with
  | nil => intro _ a b ha; cases ha
  | cons c t ih =>
    intro hnd a b ha hb v hva hvb
    have hfm : ∀ x ∈ t, ∀ w, x.playerId = some w → w ∈ t.filterMap (·.playerId) := by
      intro x hx w hw
      exact List.mem_filterMap.mpr ⟨x, hx, hw⟩
    rcases List.mem_cons.mp ha with rfl | ha2
    · rcases List.mem_cons.mp hb with rfl | hb2
      · rfl
      · rw [List.filterMap_cons, hva, List.nodup_cons] at hnd
        exact absurd (hfm b hb2 v hvb) hnd.1
    · rcases List.mem_cons.mp hb with rfl | hb2
      · rw [List.filterMap_cons, hvb, List.nodup_cons] at hnd
        exact absurd (hfm a ha2 v hva) hnd.1
      · refine ih ?_ ha2 hb2 hva hvb
        rw [List.filterMap_cons] at hnd
        cases hc : c.playerId with
        | none => rw [hc] at hnd; exact hnd
        | some w => rw [hc, List.nodup_cons] at hnd; exact hnd.2

/-- In a well-formed state, no player is bound to a code that names no
stored room: the filter count for an unused code is zero. -/
theorem count_unused_code_zero {S : SystemState} {code : String}
    (h7 : ∀ p ∈ S.players, p.roomCode = none ∨ ∃ r ∈ S.rooms, p.roomCode = some r.code)
    (hcol : ∀ r ∈ S.rooms, r.code ≠ code) :
    (S.players.filter (fun p => p.roomCode == some code)).length = 0 := by
  rw [List.length_eq_zero, List.filter_eq_nil]
  intro p hp
  rcases h7 p hp with hn | ⟨r, hr, hc⟩
  · simp [hn]
  · simp only [hc]
    simp [hcol r hr]

theorem WF_congr (S T : SystemState) (h1 : T.clients = S.clients)
    (h2 : T.players = S.players) (h3 : T.rooms = S.rooms)
    (h4 : T.playerIdCounter = S.playerIdCounter)
    (h5 : T.roomIdCounter = S.roomIdCounter) : WF T ↔ WF S := by
  simp only [WF, h1, h2, h3, h4, h5]

/-- Registering a player on an unbound connection preserves
well-formedness: the fresh id is appended to the store and bound to the
unique client record carrying the sender's connection id. -/
theorem wf_register_final (S T : SystemState) (cid nm : String) (c : WSClient)
    (h : WF S)
    (hc : lookupClient S cid = some c)
    (hcp : c.playerId = none)
    (hTc : T.clients = S.clients.map fun cl => if cl.id = cid then
        { cl with playerId := some S.playerIdCounter, username := some nm } else cl)
    (hTp : T.players = S.players ++
        [{ id := S.playerIdCounter, name := nm, sessionId := cid, roomCode := none,
           ready := false, isHost := false, points := 0 }])
    (hTr : T.rooms = S.rooms)
    (hTpc : T.playerIdCounter = S.playerIdCounter + 1)
    (hTrc : T.roomIdCounter = S.roomIdCounter) :
    WF T := by
  obtain ⟨hcm, hcid⟩ := lookupClient_mem_eq hc
  simp only [WF] at h ⊢
  obtain ⟨h1, h2, h3, h4, h5, h6, h7, h8, h9, h10⟩ := h
  rw [hTc, hTp, hTr, hTpc, hTrc]
  refine ⟨?_, ?_, h3, h4, ?_, h6, ?_, ?_, ?_, ?_⟩
  · rw [map_if_congr S.clients (fun cl => cl.id = cid)
      (fun cl => { cl with
        playerId := some S.playerIdCounter, username := some nm })
      (·.id) (fun a _ _ => rfl)]
    exact h1
  · rw [List.map_append]
    refine List.Nodup.append h2 (List.nodup_singleton _) ?_
    intro x hx1 hx2
    obtain ⟨p, hp, rfl⟩ := List.mem_map.mp hx1
    simp only [List.map_cons, List.map_nil, List.mem_singleton] at hx2
    exact absurd (hx2 ▸ h5 p hp) (lt_irrefl _)
  · intro p hp
    rcases List.mem_append.mp hp with ho | hn
    · exact Nat.lt_succ_of_lt (h5 p ho)
    · simp only [List.mem_singleton] at hn
      subst hn
      exact Nat.lt_succ_self _
  · intro p hp
    rcases List.mem_append.mp hp with ho | hn
    · exact h7 p ho
    · simp only [List.mem_singleton] at hn
      subst hn
      exact Or.inl rfl
  · intro cl hcl
    obtain ⟨c0, hc0, rfl⟩ := List.mem_map.mp hcl
    by_cases hcc : c0.id = cid
    · rw [if_pos hcc]
      have hc0c : c0 = c := List.inj_on_of_nodup_map h1 hc0 hcm (by rw [hcc, hcid])
      subst hc0c
      have hrcnone : c0.roomCode = none := by
        rcases h8 c0 hc0 with ⟨_, hn⟩ | ⟨p, _, hb, _⟩
        · exact hn
        · rw [hcp] at hb; cases hb
      refine Or.inr ⟨_, List.mem_append_right _ (List.mem_singleton_self _),
        ?_, ?_⟩
      · rfl
      · exact hrcnone.symm
    · rw [if_neg hcc]
      rcases h8 c0 hc0 with hu | ⟨p, hp, hb, hprc⟩
      · exact Or.inl hu
      · exact Or.inr ⟨p, List.mem_append_left _ hp, hb, hprc⟩
  · refine (List.Perm.nodup_iff
      (filterMap_register_perm cid S.playerIdCounter nm S.clients h1 c hcm hcid
        hcp)).mpr ?_
    rw [List.nodup_cons]
    refine ⟨?_, h9⟩
    intro hmem
    obtain ⟨cl, hcl, hclp⟩ := List.mem_filterMap.mp hmem
    rcases h8 cl hcl with ⟨hn, _⟩ | ⟨p, hp, hb, _⟩
    · rw [hn] at hclp; cases hclp
    · rw [hb] at hclp
      have hpe : p.id = S.playerIdCounter := Option.some.inj hclp
      exact absurd (hpe ▸ h5 p hp) (lt_irrefl _)
  · intro r hr
    rw [List.filter_append]
    have hnil : List.filter (fun p => p.roomCode == some r.code)
        ([{ id := S.playerIdCounter, name := nm, sessionId := cid,
            roomCode := none, ready := false, isHost := false,
            points := 0 }] : List Player) = [] := rfl
    rw [hnil, List.append_nil]
    exact h10 r hr

theorem wf_handleRegisterPlayer (S : SystemState) (cid nm : String) (h : WF S)
    (hok : ∀ c, lookupClient S cid = some c → c.playerId = none) :
    WF (handleRegisterPlayer S cid nm) := by
  simp only [handleRegisterPlayer]
  split
  · exact h
  · next c hc =>
    split
    · rw [WF_sendToClient]
      refine wf_register_final S _ cid nm c h hc (hok c hc) ?_ ?_ ?_ ?_ ?_
      · simp
      · simp
      · simp
      · simp
      · simp
    · rw [WF_sendToClient]
      exact h

/-- Appending a fresh room (fresh id from the counter, code not yet
stored) with zero count preserves well-formedness. -/
theorem wf_rooms_append (S T : SystemState) (code : String)
    (h : WF S)
    (hcol : getRoomByCode S code = none)
    (hTc : T.clients = S.clients) (hTp : T.players = S.players)
    (hTr : T.rooms = S.rooms ++
        [{ id := S.roomIdCounter, code := code, status := "waiting",
           playersCount := 0, maxPlayers := 6, minPlayers := 2,
           gameState := emptyGameState }])
    (hTpc : T.playerIdCounter = S.playerIdCounter)
    (hTrc : T.roomIdCounter = S.roomIdCounter + 1) :
    WF T := by
  have hcodes := getRoomByCode_none hcol
  simp only [WF] at h ⊢
  obtain ⟨h1, h2, h3, h4, h5, h6, h7, h8, h9, h10⟩ := h
  rw [hTc, hTp, hTr, hTpc, hTrc]
  refine ⟨h1, h2, ?_, ?_, h5, ?_, ?_, ?_, h9, ?_⟩
  · rw [List.map_append]
    refine List.Nodup.append h3 (List.nodup_singleton _) ?_
    intro x hx1 hx2
    obtain ⟨r, hr, rfl⟩ := List.mem_map.mp hx1
    simp only [List.map_cons, List.map_nil, List.mem_singleton] at hx2
    exact absurd (hx2 ▸ h6 r hr) (lt_irrefl _)
  · rw [List.map_append]
    refine List.Nodup.append h4 (List.nodup_singleton _) ?_
    intro x hx1 hx2
    obtain ⟨r, hr, rfl⟩ := List.mem_map.mp hx1
    simp only [List.map_cons, List.map_nil, List.mem_singleton] at hx2
    exact absurd hx2 (hcodes r hr)
  · intro r hr
    rcases List.mem_append.mp hr with ho | hn
    · exact Nat.lt_succ_of_lt (h6 r ho)
    · simp only [List.mem_singleton] at hn
      subst hn
      exact Nat.lt_succ_self _
  · intro p hp
    rcases h7 p hp with hn | ⟨r, hr, hc⟩
    · exact Or.inl hn
    · exact Or.inr ⟨r, List.mem_append_left _ hr, hc⟩
  · intro cl hcl
    rcases h8 cl hcl with hu | ⟨p, hp, hb, hprc⟩
    · exact Or.inl hu
    · exact Or.inr ⟨p, hp, hb, hprc⟩
  · intro r hr
    rcases List.mem_append.mp hr with ho | hn
    · exact h10 r ho
    · simp only [List.mem_singleton] at hn
      subst hn
      exact (count_unused_code_zero h7 hcodes).symm

/-- Creating a room from a player not yet in any room preserves
well-formedness: the creator's player record, the unique client record
and the fresh room (count 1) stay consistent, and no other count moves. -/
theorem wf_create_final (S T : SystemState) (cid code : String) (c : WSClient)
    (pid : Nat) (player : Player)
    (h : WF S)
    (hc : lookupClient S cid = some c)
    (hcp : c.playerId = some pid)
    (hcol : getRoomByCode S code = none)
    (hgp : getPlayer S pid = some player)
    (hprc : player.roomCode = none)
    (hTc : T.clients = S.clients.map fun cl => if cl.id = cid then
        { cl with roomCode := some code } else cl)
    (hTp : T.players = S.players.map fun p => if p.id = pid then
        { p with roomCode := some code, isHost := true, ready := false } else p)
    (hTr : T.rooms = List.map
        (fun (r : Room) =>
          if r.id = S.roomIdCounter then { r with playersCount := 1 } else r)
        (S.rooms ++
         [{ id := S.roomIdCounter, code := code, status := "waiting",
            playersCount := 0, maxPlayers := 6, minPlayers := 2,
            gameState := emptyGameState }]))
    (hTpc : T.playerIdCounter = S.playerIdCounter)
    (hTrc : T.roomIdCounter = S.roomIdCounter + 1) :
    WF T := by
  obtain ⟨hcm, hcid⟩ := lookupClient_mem_eq hc
  obtain ⟨hpm, hpid⟩ := getPlayer_mem_eq hgp
  have hcodes := getRoomByCode_none hcol
  simp only [WF] at h ⊢
  obtain ⟨h1, h2, h3, h4, h5, h6, h7, h8, h9, h10⟩ := h
  have hrooms : T.rooms = S.rooms ++
      [{ id := S.roomIdCounter, code := code, status := "waiting",
         playersCount := 1, maxPlayers := 6, minPlayers := 2,
         gameState := emptyGameState }] := by
    rw [hTr, List.map_append]
    congr 1
    · have hpt : ∀ r ∈ S.rooms, (if r.id = S.roomIdCounter then
          ({ r with playersCount := 1 } : Room) else r) = r := by
        intro r hr
        exact if_neg (Nat.ne_of_lt (h6 r hr))
      rw [List.map_congr_left hpt]
      simp
    · simp
  have hui : ∀ p : Player, ((if p.id = pid then
      { p with roomCode := some code, isHost := true, ready := false }
      else p) : Player).id = p.id := by
    intro p; split <;> rfl
  rw [hTc, hTp, hrooms, hTpc, hTrc]
  refine ⟨?_, ?_, ?_, ?_, ?_, ?_, ?_, ?_, ?_, ?_⟩
  · rw [map_if_congr S.clients (fun cl => cl.id = cid)
      (fun cl => { cl with roomCode := some code }) (·.id) (fun a _ _ => rfl)]
    exact h1
  · rw [map_if_congr S.players (fun p => p.id = pid)
      (fun p => { p with roomCode := some code, isHost := true, ready := false })
      (·.id) (fun a _ _ => rfl)]
    exact h2
  · rw [List.map_append]
    refine List.Nodup.append h3 (List.nodup_singleton _) ?_
    intro x hx1 hx2
    obtain ⟨r, hr, rfl⟩ := List.mem_map.mp hx1
    simp only [List.map_cons, List.map_nil, List.mem_singleton] at hx2
    exact absurd (hx2 ▸ h6 r hr) (lt_irrefl _)
  · rw [List.map_append]
    refine List.Nodup.append h4 (List.nodup_singleton _) ?_
    intro x hx1 hx2
    obtain ⟨r, hr, rfl⟩ := List.mem_map.mp hx1
    simp only [List.map_cons, List.map_nil, List.mem_singleton] at hx2
    exact absurd hx2 (hcodes r hr)
  · intro p hp
    obtain ⟨p0, hp0, rfl⟩ := List.mem_map.mp hp
    rw [hui p0]
    exact h5 p0 hp0
  · intro r hr
    rcases List.mem_append.mp hr with ho | hn
    · exact Nat.lt_succ_of_lt (h6 r ho)
    · simp only [List.mem_singleton] at hn
      subst hn
      exact Nat.lt_succ_self _
  · intro p hp
    obtain ⟨p0, hp0, rfl⟩ := List.mem_map.mp hp
    by_cases hq : p0.id = pid
    · rw [if_pos hq]
      exact Or.inr ⟨_, List.mem_append_right _ (List.mem_singleton_self _), rfl⟩
    · rw [if_neg hq]
      rcases h7 p0 hp0 with hn | ⟨r, hr, hcr⟩
      · exact Or.inl hn
      · exact Or.inr ⟨r, List.mem_append_left _ hr, hcr⟩
  · intro cl hcl
    obtain ⟨c0, hc0, rfl⟩ := List.mem_map.mp hcl
    by_cases hcc : c0.id = cid
    · rw [if_pos hcc]
      have hc0c : c0 = c := List.inj_on_of_nodup_map h1 hc0 hcm (by rw [hcc, hcid])
      subst hc0c
      have hpw : (if player.id = pid then
          ({ player with
            roomCode := some code, isHost := true, ready := false } : Player)
          else player)
          = ({ player with
            roomCode := some code, isHost := true, ready := false } : Player) :=
        if_pos hpid
      refine Or.inr ⟨_, List.mem_map_of_mem _ hpm, ?_, ?_⟩
      · rw [hpw, hcp, hpid]
      · rw [hpw]
    · rw [if_neg hcc]
      rcases h8 c0 hc0 with hu | ⟨p, hp, hb, hpc⟩
      · exact Or.inl hu
      · by_cases hq : p.id = pid
        · exfalso
          have hpc0 : c0.playerId = some pid := by rw [hb, hq]
          have : c0 = c := nodup_filterMap_eq h9 hc0 hcm hpc0 hcp
          exact hcc (by rw [this, hcid])
        · refine Or.inr ⟨_, List.mem_map_of_mem _ hp, ?_, ?_⟩
          · rw [if_neg hq]; exact hb
          · rw [if_neg hq]; exact hpc
  · rw [filterMap_map_congr S.clients _ (·.playerId) (fun a _ => by
      by_cases hcc : a.id = cid
      · rw [if_pos hcc]
      · rw [if_neg hcc])]
    exact h9
  · intro r hr
    have hkey := length_filter_update (·.id) pid
      (fun p => { p with roomCode := some code, isHost := true, ready := false })
      (fun p => p.roomCode == some r.code) S.players h2 player hpm hpid
    rcases List.mem_append.mp hr with ho | hn
    · have hqa : (player.roomCode == some r.code) = false := by
        rw [hprc]; rfl
      have hqf : ((({ player with
          roomCode := some code, isHost := true, ready := false }
            : Player)).roomCode == some r.code) = false :=
        beq_eq_false_iff_ne.mpr (fun he => hcodes r ho (by
          injection he with he2; rw [he2]))
      simp only [hqa, hqf] at hkey
      simp at hkey
      rw [h10 r ho]
      omega
    · simp only [List.mem_singleton] at hn
      subst hn
      have hqa : (player.roomCode == some code) = false := by
        rw [hprc]; rfl
      have hqf : ((({ player with
          roomCode := some code, isHost := true, ready := false }
            : Player)).roomCode == some code) = true := by
        simp
      have hzero := count_unused_code_zero h7 hcodes
      simp only [hqa, hqf] at hkey
      simp at hkey
      rw [hzero] at hkey
      simpa using hkey.symm

theorem wf_handleCreateRoom (S : SystemState) (cid code : String) (h : WF S)
    (hok : ∀ c, lookupClient S cid = some c → ∀ pid, c.playerId = some pid →
      ∀ p, getPlayer S pid = some p → p.roomCode = none) :
    WF (handleCreateRoom S cid code) := by
  simp only [handleCreateRoom]
  split
  · exact h
  next c hc =>
  split
  · exact h
  next pid hpid =>
  split
  · exact h
  next hcol =>
  have hcol2 : getRoomByCode S code = none :=
    Option.not_isSome_iff_eq_none.mp hcol
  split
  · exact wf_rooms_append S _ code h hcol2 (by simp) (by simp) (by simp)
      (by simp) (by simp)
  next player hgp =>
    rw [WF_sendToClient, WF_addToRoom]
    exact wf_create_final S _ cid code c pid player h hc hpid hcol2 hgp
      (hok c hc pid hpid player hgp) (by simp) (by simp) (by simp)
      (by simp) (by simp)

/-- Joining a room from a player not yet in any room preserves
well-formedness: the joined room's count moves up by exactly the one
player whose binding flips to the room's code. -/
theorem wf_join_final (S T : SystemState) (cid code : String) (c : WSClient)
    (pid : Nat) (player : Player) (room : Room)
    (h : WF S)
    (hc : lookupClient S cid = some c)
    (hcp : c.playerId = some pid)
    (hroom : getRoomByCode S code = some room)
    (hgp : getPlayer S pid = some player)
    (hprc : player.roomCode = none)
    (hTc : T.clients = S.clients.map fun cl => if cl.id = cid then
        { cl with roomCode := some code } else cl)
    (hTp : T.players = S.players.map fun p => if p.id = pid then
        { p with roomCode := some code, ready := false } else p)
    (hTr : T.rooms = S.rooms.map fun (r : Room) =>
        if r.id = room.id then { r with playersCount := room.playersCount + 1 }
        else r)
    (hTpc : T.playerIdCounter = S.playerIdCounter)
    (hTrc : T.roomIdCounter = S.roomIdCounter) :
    WF T := by
  obtain ⟨hcm, hcid⟩ := lookupClient_mem_eq hc
  obtain ⟨hpm, hpid⟩ := getPlayer_mem_eq hgp
  obtain ⟨hrm, hrc⟩ := getRoomByCode_mem_eq hroom
  simp only [WF] at h ⊢
  obtain ⟨h1, h2, h3, h4, h5, h6, h7, h8, h9, h10⟩ := h
  have hui : ∀ p : Player, ((if p.id = pid then
      { p with roomCode := some code, ready := false }
      else p) : Player).id = p.id := by
    intro p; split <;> rfl
  have hri : ∀ r : Room, ((if r.id = room.id then
      { r with playersCount := room.playersCount + 1 }
      else r) : Room).id = r.id := by
    intro r; split <;> rfl
  have huc : ∀ r : Room, ((if r.id = room.id then
      { r with playersCount := room.playersCount + 1 }
      else r) : Room).code = r.code := by
    intro r; split <;> rfl
  rw [hTc, hTp, hTr, hTpc, hTrc]
  refine ⟨?_, ?_, ?_, ?_, ?_, ?_, ?_, ?_, ?_, ?_⟩
  · rw [map_if_congr S.clients (fun cl => cl.id = cid)
      (fun cl => { cl with roomCode := some code }) (·.id) (fun a _ _ => rfl)]
    exact h1
  · rw [map_if_congr S.players (fun p => p.id = pid)
      (fun p => { p with roomCode := some code, ready := false })
      (·.id) (fun a _ _ => rfl)]
    exact h2
  · rw [map_if_congr S.rooms (fun r => r.id = room.id)
      (fun r => { r with playersCount := room.playersCount + 1 })
      (·.id) (fun a _ _ => rfl)]
    exact h3
  · rw [map_if_congr S.rooms (fun r => r.id = room.id)
      (fun r => { r with playersCount := room.playersCount + 1 })
      (·.code) (fun a _ _ => rfl)]
    exact h4
  · intro p hp
    obtain ⟨p0, hp0, rfl⟩ := List.mem_map.mp hp
    rw [hui p0]
    exact h5 p0 hp0
  · intro r hr
    obtain ⟨r0, hr0, rfl⟩ := List.mem_map.mp hr
    rw [hri r0]
    exact h6 r0 hr0
  · intro p hp
    obtain ⟨p0, hp0, rfl⟩ := List.mem_map.mp hp
    by_cases hq : p0.id = pid
    · rw [if_pos hq]
      refine Or.inr ⟨_, List.mem_map_of_mem _ hrm, ?_⟩
      rw [huc room]
      exact congrArg some hrc.symm
    · rw [if_neg hq]
      rcases h7 p0 hp0 with hn | ⟨r, hr, hcr⟩
      · exact Or.inl hn
      · refine Or.inr ⟨_, List.mem_map_of_mem _ hr, ?_⟩
        rw [huc r]
        exact hcr
  · intro cl hcl
    obtain ⟨c0, hc0, rfl⟩ := List.mem_map.mp hcl
    by_cases hcc : c0.id = cid
    · rw [if_pos hcc]
      have hc0c : c0 = c := List.inj_on_of_nodup_map h1 hc0 hcm (by rw [hcc, hcid])
      subst hc0c
      have hpw : (if player.id = pid then
          ({ player with roomCode := some code, ready := false } : Player)
          else player)
          = ({ player with roomCode := some code, ready := false } : Player) :=
        if_pos hpid
      refine Or.inr ⟨_, List.mem_map_of_mem _ hpm, ?_, ?_⟩
      · rw [hpw, hcp, hpid]
      · rw [hpw]
    · rw [if_neg hcc]
      rcases h8 c0 hc0 with hu | ⟨p, hp, hb, hpc⟩
      · exact Or.inl hu
      · by_cases hq : p.id = pid
        · exfalso
          have hpc0 : c0.playerId = some pid := by rw [hb, hq]
          have : c0 = c := nodup_filterMap_eq h9 hc0 hcm hpc0 hcp
          exact hcc (by rw [this, hcid])
        · refine Or.inr ⟨_, List.mem_map_of_mem _ hp, ?_, ?_⟩
          · rw [if_neg hq]; exact hb
          · rw [if_neg hq]; exact hpc
  · rw [filterMap_map_congr S.clients _ (·.playerId) (fun a _ => by
      by_cases hcc : a.id = cid
      · rw [if_pos hcc]
      · rw [if_neg hcc])]
    exact h9
  · intro r hr
    obtain ⟨r0, hr0, rfl⟩ := List.mem_map.mp hr
    by_cases hq0 : r0.id = room.id
    · have hr0room : r0 = room := List.inj_on_of_nodup_map h3 hr0 hrm hq0
      subst hr0room
      rw [if_pos hq0]
      have hkey := length_filter_update (·.id) pid
        (fun p => { p with roomCode := some code, ready := false })
        (fun p => p.roomCode == some r0.code) S.players h2 player hpm hpid
      have hqa : (player.roomCode == some r0.code) = false := by
        rw [hprc]; rfl
      have hqf : ((({ player with roomCode := some code, ready := false }
          : Player)).roomCode == some r0.code) = true := by
        simp [hrc]
      have h0 := h10 r0 hr0
      simp only [hqa, hqf] at hkey
      simp at hkey h0 ⊢
      omega
    · rw [if_neg hq0]
      have hkey := length_filter_update (·.id) pid
        (fun p => { p with roomCode := some code, ready := false })
        (fun p => p.roomCode == some r0.code) S.players h2 player hpm hpid
      have hqa : (player.roomCode == some r0.code) = false := by
        rw [hprc]; rfl
      have hne : r0.code ≠ code := by
        intro he
        exact hq0 (by
          rw [List.inj_on_of_nodup_map h4 hr0 hrm (by rw [he, hrc])])
      have hqf : ((({ player with roomCode := some code, ready := false }
          : Player)).roomCode == some r0.code) = false :=
        beq_eq_false_iff_ne.mpr (fun he => hne (by
          injection he with he2; rw [he2]))
      have h0 := h10 r0 hr0
      simp only [hqa, hqf] at hkey
      simp at hkey h0 ⊢
      omega

theorem wf_handleJoinRoom (S : SystemState) (cid code : String) (h : WF S)
    (hok : ∀ c, lookupClient S cid = some c → ∀ pid, c.playerId = some pid →
      ∀ p, getPlayer S pid = some p → p.roomCode = none) :
    WF (handleJoinRoom S cid code) := by
  simp only [handleJoinRoom]
  split
  · exact h
  next c hc =>
  split
  · exact h
  next pid hcp =>
  split
  · rw [WF_sendToClient]; exact h
  split
  · rw [WF_sendToClient]; exact h
  next room hroom =>
  split
  · rw [WF_sendToClient]; exact h
  split
  · rw [WF_sendToClient]; exact h
  split
  · exact h
  next player hgp =>
    rw [WF_sendToClient, WF_broadcast, WF_addToRoom]
    exact wf_join_final S _ cid code c pid player room h hc hcp hroom hgp
      (hok c hc pid hcp player hgp) (by simp) (by simp) (by simp)
      (by simp) (by simp)

/-- Leaving a room preserves well-formedness: the leaver's binding is
cleared on both the player and the client record, the room count moves
down by exactly that one player, and an optional host-promotion pass `g`
(which never touches ids or room bindings) changes nothing else. -/
theorem wf_leave_final (S T : SystemState) (cid : String) (c : WSClient)
    (pid : Nat) (rc : String) (player : Player) (room : Room)
    (g : Player → Player)
    (hgid : ∀ p, (g p).id = p.id) (hgrc : ∀ p, (g p).roomCode = p.roomCode)
    (h : WF S)
    (hc : lookupClient S cid = some c)
    (hcp : c.playerId = some pid)
    (hcrc : c.roomCode = some rc)
    (hroom : getRoomByCode S rc = some room)
    (hgp : getPlayer S pid = some player)
    (hTc : T.clients = S.clients.map fun cl => if cl.id = cid then
        { cl with roomCode := none } else cl)
    (hTp : T.players = (S.players.map fun p => if p.id = pid then
        { p with roomCode := none, ready := false, isHost := false } else p).map g)
    (hTr : T.rooms = S.rooms.map fun (r : Room) =>
        if r.id = room.id then { r with playersCount := room.playersCount - 1 }
        else r)
    (hTpc : T.playerIdCounter = S.playerIdCounter)
    (hTrc : T.roomIdCounter = S.roomIdCounter) :
    WF T := by
  obtain ⟨hcm, hcid⟩ := lookupClient_mem_eq hc
  obtain ⟨hpm, hpid⟩ := getPlayer_mem_eq hgp
  obtain ⟨hrm, hrc⟩ := getRoomByCode_mem_eq hroom
  simp only [WF] at h ⊢
  obtain ⟨h1, h2, h3, h4, h5, h6, h7, h8, h9, h10⟩ := h
  have hprc : player.roomCode = some rc := by
    rcases h8 c hcm with ⟨hn, _⟩ | ⟨p, hp, hb, hpc⟩
    · rw [hn] at hcp; cases hcp
    · rw [hcp] at hb
      have hpe : p.id = pid := (Option.some.inj hb).symm
      have : p = player :=
        List.inj_on_of_nodup_map h2 hp hpm (by rw [hpe, hpid])
      rw [← this, hpc, hcrc]
  have hui : ∀ p : Player, ((if p.id = pid then
      { p with roomCode := none, ready := false, isHost := false }
      else p) : Player).id = p.id := by
    intro p; split <;> rfl
  have hri : ∀ r : Room, ((if r.id = room.id then
      { r with playersCount := room.playersCount - 1 }
      else r) : Room).id = r.id := by
    intro r; split <;> rfl
  have huc : ∀ r : Room, ((if r.id = room.id then
      { r with playersCount := room.playersCount - 1 }
      else r) : Room).code = r.code := by
    intro r; split <;> rfl
  rw [hTc, hTp, hTr, hTpc, hTrc]
  refine ⟨?_, ?_, ?_, ?_, ?_, ?_, ?_, ?_, ?_, ?_⟩
  · rw [map_if_congr S.clients (fun cl => cl.id = cid)
      (fun cl => { cl with roomCode := none }) (·.id) (fun a _ _ => rfl)]
    exact h1
  · rw [List.map_map]
    have hstep : List.map ((fun x => x.id) ∘ g)
        (S.players.map fun p => if p.id = pid then
          { p with roomCode := none, ready := false, isHost := false } else p)
        = List.map (fun x => x.id)
        (S.players.map fun p => if p.id = pid then
          { p with roomCode := none, ready := false, isHost := false } else p) :=
      List.map_congr_left (fun a _ => hgid a)
    rw [hstep, map_if_congr S.players (fun p => p.id = pid)
        (fun p => { p with roomCode := none, ready := false, isHost := false })
        (·.id) (fun a _ _ => rfl)]
    exact h2
  · rw [map_if_congr S.rooms (fun r => r.id = room.id)
      (fun r => { r with playersCount := room.playersCount - 1 })
      (·.id) (fun a _ _ => rfl)]
    exact h3
  · rw [map_if_congr S.rooms (fun r => r.id = room.id)
      (fun r => { r with playersCount := room.playersCount - 1 })
      (·.code) (fun a _ _ => rfl)]
    exact h4
  · intro p hp
    obtain ⟨p1, hp1, rfl⟩ := List.mem_map.mp hp
    obtain ⟨p0, hp0, rfl⟩ := List.mem_map.mp hp1
    rw [hgid, hui p0]
    exact h5 p0 hp0
  · intro r hr
    obtain ⟨r0, hr0, rfl⟩ := List.mem_map.mp hr
    rw [hri r0]
    exact h6 r0 hr0
  · intro p hp
    obtain ⟨p1, hp1, rfl⟩ := List.mem_map.mp hp
    obtain ⟨p0, hp0, rfl⟩ := List.mem_map.mp hp1
    rw [hgrc]
    by_cases hq : p0.id = pid
    · rw [if_pos hq]
      exact Or.inl rfl
    · rw [if_neg hq]
      rcases h7 p0 hp0 with hn | ⟨r, hr, hcr⟩
      · exact Or.inl hn
      · refine Or.inr ⟨_, List.mem_map_of_mem _ hr, ?_⟩
        rw [huc r]
        exact hcr
  · intro cl hcl
    obtain ⟨c0, hc0, rfl⟩ := List.mem_map.mp hcl
    by_cases hcc : c0.id = cid
    · rw [if_pos hcc]
      have hc0c : c0 = c := List.inj_on_of_nodup_map h1 hc0 hcm (by rw [hcc, hcid])
      subst hc0c
      have hpw : (if player.id = pid then
          ({ player with
            roomCode := none, ready := false, isHost := false } : Player)
          else player)
          = ({ player with
            roomCode := none, ready := false, isHost := false } : Player) :=
        if_pos hpid
      refine Or.inr ⟨_, List.mem_map_of_mem g (List.mem_map_of_mem _ hpm),
        ?_, ?_⟩
      · rw [hgid, hpw, hcp, hpid]
      · rw [hgrc, hpw]
    · rw [if_neg hcc]
      rcases h8 c0 hc0 with hu | ⟨p, hp, hb, hpc⟩
      · exact Or.inl hu
      · by_cases hq : p.id = pid
        · exfalso
          have hpc0 : c0.playerId = some pid := by rw [hb, hq]
          have : c0 = c := nodup_filterMap_eq h9 hc0 hcm hpc0 hcp
          exact hcc (by rw [this, hcid])
        · refine Or.inr ⟨_, List.mem_map_of_mem g (List.mem_map_of_mem _ hp),
            ?_, ?_⟩
          · rw [hgid, if_neg hq]; exact hb
          · rw [hgrc, if_neg hq]; exact hpc
  · rw [filterMap_map_congr S.clients _ (·.playerId) (fun a _ => by
      by_cases hcc : a.id = cid
      · rw [if_pos hcc]
      · rw [if_neg hcc])]
    exact h9
  · intro r hr
    obtain ⟨r0, hr0, rfl⟩ := List.mem_map.mp hr
    by_cases hq0 : r0.id = room.id
    · have hr0room : r0 = room := List.inj_on_of_nodup_map h3 hr0 hrm hq0
      subst hr0room
      rw [if_pos hq0]
      have hkey := length_filter_update (·.id) pid
        (fun p => { p with roomCode := none, ready := false, isHost := false })
        (fun p => p.roomCode == some r0.code) S.players h2 player hpm hpid
      have hqa : (player.roomCode == some r0.code) = true := by
        rw [hprc, hrc]
        simp
      have hqf : ((({ player with
          roomCode := none, ready := false, isHost := false }
          : Player)).roomCode == some r0.code) = false := rfl
      have hlen := length_filter_map_congr
        (S.players.map fun p => if p.id = pid then
          { p with roomCode := none, ready := false, isHost := false } else p)
        g (fun p => p.roomCode == some r0.code)
        (fun a _ => by simp only [hgrc])
      have h0 := h10 r0 hr0
      simp only [hqa, hqf] at hkey
      simp at hkey h0 hlen ⊢
      omega
    · rw [if_neg hq0]
      have hkey := length_filter_update (·.id) pid
        (fun p => { p with roomCode := none, ready := false, isHost := false })
        (fun p => p.roomCode == some r0.code) S.players h2 player hpm hpid
      have hne : rc ≠ r0.code := by
        intro he
        exact hq0 (by
          rw [List.inj_on_of_nodup_map h4 hr0 hrm (by rw [← he, hrc])])
      have hqa : (player.roomCode == some r0.code) = false := by
        rw [hprc]
        exact beq_eq_false_iff_ne.mpr (fun he => hne (Option.some.inj he))
      have hqf : ((({ player with
          roomCode := none, ready := false, isHost := false }
          : Player)).roomCode == some r0.code) = false := rfl
      have hlen := length_filter_map_congr
        (S.players.map fun p => if p.id = pid then
          { p with roomCode := none, ready := false, isHost := false } else p)
        g (fun p => p.roomCode == some r0.code)
        (fun a _ => by simp only [hgrc])
      have h0 := h10 r0 hr0
      simp only [hqa, hqf] at hkey
      simp at hkey h0 hlen ⊢
      omega

theorem wf_handleLeaveRoom (S : SystemState) (cid : String) (h : WF S) :
    WF (handleLeaveRoom S cid) := by
  simp only [handleLeaveRoom]
  split
  · exact h
  next c hc =>
  split
  all_goals try exact h
  next pid rc hcpid hcrc =>
  split
  all_goals try exact h
  next room player hroom hgp =>
  rw [WF_sendToClient]
  split
  next hhost =>
    split
    next hnil =>
      exact wf_leave_final S _ cid c pid rc player room (fun p => p)
        (fun p => rfl) (fun p => rfl) h hc hcpid hcrc hroom hgp
        (by simp) (by simp) (by simp) (by simp) (by simp)
    next newHost rest hcons =>
      exact wf_leave_final S _ cid c pid rc player room
        (fun p => if p.id = newHost.id then { p with isHost := true } else p)
        (fun p => by by_cases hx : p.id = newHost.id <;> simp [hx])
        (fun p => by by_cases hx : p.id = newHost.id <;> simp [hx])
        h hc hcpid hcrc hroom hgp
        (by simp) (by simp) (by simp) (by simp) (by simp)
  next hnh =>
    exact wf_leave_final S _ cid c pid rc player room (fun p => p)
      (fun p => rfl) (fun p => rfl) h hc hcpid hcrc hroom hgp
      (by simp) (by simp) (by simp) (by simp) (by simp)

theorem wf_handleConnect (S : SystemState) (cid : String) (h : WF S) :
    WF (handleConnect S cid) := by
  simp only [handleConnect]
  rw [WF_sendToClient]
  split
  · simp only [WF] at h ⊢
    obtain ⟨h1, h2, h3, h4, h5, h6, h7, h8, h9, h10⟩ := h
    refine ⟨?_, h2, h3, h4, h5, h6, h7, ?_, ?_, h10⟩
    · rw [map_if_congr S.clients (fun c => c.id = cid)
        (fun c => ⟨cid, none, none, none⟩) (·.id) (fun a _ hc => hc.symm)]
      exact h1
    · intro cl hcl
      obtain ⟨c0, hc0, rfl⟩ := List.mem_map.mp hcl
      by_cases hcc : c0.id = cid
      · rw [if_pos hcc]
        exact Or.inl ⟨rfl, rfl⟩
      · rw [if_neg hcc]
        rcases h8 c0 hc0 with hu | hb
        · exact Or.inl hu
        · exact Or.inr hb
    · refine (filterMap_map_sublist S.clients _ (·.playerId) ?_).nodup h9
      intro a _
      by_cases hcc : a.id = cid
      · rw [if_pos hcc]
        exact Or.inr rfl
      · rw [if_neg hcc]
        exact Or.inl rfl
  · next hdup =>
    have hfresh : ∀ c0 ∈ S.clients, c0.id ≠ cid := by
      intro c0 hc0 he
      exact hdup (by
        unfold lookupClient
        exact List.find?_isSome.mpr ⟨c0, hc0, by simp [he]⟩)
    simp only [WF] at h ⊢
    obtain ⟨h1, h2, h3, h4, h5, h6, h7, h8, h9, h10⟩ := h
    refine ⟨?_, h2, h3, h4, h5, h6, h7, ?_, ?_, h10⟩
    · rw [List.map_append]
      refine List.Nodup.append h1 (List.nodup_singleton _) ?_
      intro x hx1 hx2
      obtain ⟨c0, hc0, rfl⟩ := List.mem_map.mp hx1
      simp only [List.map_cons, List.map_nil, List.mem_singleton] at hx2
      exact hfresh c0 hc0 hx2
    · intro cl hcl
      rcases List.mem_append.mp hcl with ho | hn
      · rcases h8 cl ho with hu | hb
        · exact Or.inl hu
        · exact Or.inr hb
      · simp only [List.mem_singleton] at hn
        subst hn
        exact Or.inl ⟨rfl, rfl⟩
    · rw [List.filterMap_append]
      have hnil : List.filterMap (·.playerId)
          ([⟨cid, none, none, none⟩] : List WSClient) = [] := rfl
      rw [hnil, List.append_nil]
      exact h9

/-- One well-formedness step: every inbound event except a transport
close, fired under its sanity condition, preserves `WF` — in particular
the count invariant. -/
theorem wf_step (S : SystemState) (e : Event) (h : WF S)
    (hok : eventOk S e = true) : WF (step S e) := by
  cases e with
  | connect cid => exact wf_handleConnect S cid h
  | register cid nm =>
    refine wf_handleRegisterPlayer S cid nm h ?_
    intro c hc
    simp only [eventOk] at hok
    rw [hc] at hok
    simpa using hok
  | createRoom cid code =>
    refine wf_handleCreateRoom S cid code h ?_
    intro c hc pid hpid p hp
    simp only [eventOk, hc, hpid, hp] at hok
    simpa using hok
  | joinRoom cid code =>
    refine wf_handleJoinRoom S cid code h ?_
    intro c hc pid hpid p hp
    simp only [eventOk, hc, hpid, hp] at hok
    simpa using hok
  | leaveRoom cid => exact wf_handleLeaveRoom S cid h
  | toggleReady cid =>
    simp only [step, handleToggleReady]
    repeat' split
    all_goals
      repeat
        first
        | exact h
        | rw [WF_sendToClient]
        | rw [WF_broadcast]
        | refine WF_updatePlayerF _ _ _ (fun p => rfl) (fun p => rfl) ?_
  | startGame cid rand =>
    simp only [step, handleStartGame, updateRoomGameState]
    repeat' split
    all_goals
      repeat
        first
        | exact h
        | rw [WF_sendToClient]
        | rw [WF_broadcast]
        | rw [WF_foldpc]
        | refine WF_updateRoomF _ _ _ (fun r => rfl) (fun r => rfl)
            (fun r => rfl) ?_
  | makeAccusation cid s2 w2 rm2 =>
    simp only [step, handleMakeAccusation]
    repeat' split
    all_goals
      repeat
        first
        | exact h
        | rw [WF_sendToClient]
        | rw [WF_broadcast]
  | makeFinalAccusation cid s2 w2 rm2 =>
    simp only [step, handleMakeFinalAccusation]
    repeat' split
    all_goals
      repeat
        first
        | exact h
        | rw [WF_sendToClient]
        | rw [WF_broadcast]
        | refine WF_updateRoomF _ _ _ (fun r => rfl) (fun r => rfl)
            (fun r => rfl) ?_
  | endTurn cid =>
    simp only [step, handleEndTurn, updateRoomGameState]
    repeat' split
    all_goals
      repeat
        first
        | exact h
        | rw [WF_sendToClient]
        | rw [WF_broadcast]
        | refine WF_updateRoomF _ _ _ (fun r => rfl) (fun r => rfl)
            (fun r => rfl) ?_
  | getSolution cid =>
    simp only [step]
    rw [WF_sendToClient]
    exact h
  | disconnect cid =>
    simp only [eventOk] at hok
    cases hok

theorem wf_run : ∀ (es : List Event) (S : SystemState), WF S →
    okTrace S es = true → WF (run S es)
  | [], _, h, _ => h
  | e :: es, S, h, hok => by
    have hok2 : eventOk S e = true ∧ okTrace (step S e) es = true := by
      simp only [okTrace, Bool.and_eq_true] at hok
      exact hok
    exact wf_run es (step S e) (wf_step S e h hok2.1) hok2.2

theorem wf_init : WF initState := by
  simp [WF, initState]

/-- Counterexample to C6 as stated: after alice creates ABCDEF, bob joins
and bob's connection then closes (a fully processed inbound disconnect),
the room still records playersCount = 2 while only one stored player
(alice) has roomCode ABCDEF — the close handler never decrements. -/
theorem claim_C6_counterexample :
    ((run initState disconnectCountTrace).rooms.map
      (fun r => (r.code, r.playersCount))) = [("ABCDEF", 2)] ∧
    ((run initState disconnectCountTrace).players.filter
      (fun p => p.roomCode == some "ABCDEF")).length = 1 ∧
    (2 : Nat) ≠ 1 := by decide

/-- C6 as amended: playersCount equals the live count of players bound to
the room's code at every quiescent point of any event trace that contains
no transport disconnect, provided each register fires on a not-yet-bound
connection and each create/join on a player not already inside a room
(`okTrace`); the disconnect handler itself breaks the invariant. -/
theorem claim_C6_amended (es : List Event) (r : Room)
    (hok : okTrace initState es = true)
    (hr : r ∈ (run initState es).rooms) :
    r.playersCount = ((run initState es).players.filter
      (fun p => p.roomCode == some r.code)).length := by
  have hwf := wf_run es initState wf_init hok
  simp only [WF] at hwf
  exact hwf.2.2.2.2.2.2.2.2.2 r hr

/-- Witness for the amended C6 theorem: after alice creates ABCDEF and bob
joins (an allowed trace), the room's playersCount 2 equals the number of
players bound to ABCDEF. -/
theorem claim_C6_witness :
    okTrace initState joinedTrace = true ∧
    ({ id := 1, code := "ABCDEF", status := "waiting", playersCount := 2,
       maxPlayers := 6, minPlayers := 2, gameState := emptyGameState } : Room)
      ∈ (run initState joinedTrace).rooms ∧
    (2 : Nat) = ((run initState joinedTrace).players.filter
      (fun p => p.roomCode == some "ABCDEF")).length :=
  ⟨by decide, by decide,
   claim_C6_amended joinedTrace
     { id := 1, code := "ABCDEF", status := "waiting", playersCount := 2,
       maxPlayers := 6, minPlayers := 2, gameState := emptyGameState }
     (by decide) (by decide)⟩

/-- Counterexample to C9 as stated: the dispatcher has no get_solution
case, so even the distinguished requester — here the host of a started
game, whose player name lowercases to "seif", in a room whose hidden
solution is present — receives the unknown-message-type error instead of
`solution_revealed`, and no solution_revealed envelope ever appears. -/
theorem claim_C9_counterexample :
    ((run initState seifTrace).players.map (fun p => jsToLower p.name))
      = ["seif", "bob"] ∧
    (getRoomGameState (run initState seifTrace) "ABCDEF").bind (·.solution)
      = some ⟨"colonel_mustard", "knife", "study"⟩ ∧
    step (run initState seifTrace) (.getSolution "c1") =
      { run initState seifTrace with
        outbox := (run initState seifTrace).outbox ++
          [("c1", Msg.errorMsg "Unknown message type: get_solution")] } ∧
    ((step (run initState seifTrace) (.getSolution "c1")).outbox.filter
      (fun e => match e.2 with
        | Msg.solutionRevealed _ => true
        | _ => false)).length = 0 := by
  refine ⟨by decide, by decide, by decide, by decide⟩

/-- C9 as amended: the message dispatcher (routes.ts handleWSMessage) has
no get_solution case, so every get_solution request — whoever sends it,
the hard-coded "seif" identity included — falls through to the default
arm and is answered with a unicast "Unknown message type: get_solution"
error (or silently dropped when the connection is unknown); no player,
room, client or subscription state changes and no solution is ever
revealed.  chat.ts handleGetSolution is unreachable dead code. -/
theorem claim_C9_amended (S : SystemState) (cid : String) :
    (step S (.getSolution cid)).clients = S.clients ∧
    (step S (.getSolution cid)).players = S.players ∧
    (step S (.getSolution cid)).rooms = S.rooms ∧
    (step S (.getSolution cid)).roomSubscriptions = S.roomSubscriptions ∧
    ((step S (.getSolution cid)).outbox = S.outbox ∨
     (step S (.getSolution cid)).outbox = S.outbox ++
       [(cid, Msg.errorMsg "Unknown message type: get_solution")]) := by
  refine ⟨sendToClient_clients S cid _, sendToClient_players S cid _,
    sendToClient_rooms S cid _, sendToClient_subs S cid _, ?_⟩
  simp only [step, sendToClient]
  cases lookupClient S cid <;> simp


end MysteryMansion
